import Mathlib

/-!
Shallow embedding of the ruscv RV32I assembler and simulator core
(src/lexer.rs, src/parser.rs, src/assembler.rs, src/processor.rs, src/config.rs).

Machine integers are modelled as `Nat` (for Rust `u32`/`u8`/`u16` values, kept
below their modulus by explicit `% 2^32` where the Rust operation wraps) and as
`Int` (for Rust `i32` values).  Rust `x as u32` on an `i32` is `toU32`; the
reinterpretation `x as i32` of a `u32` is `toI32`.  Rust's arithmetic right
shift on `i32` is `Int` shift-right (floor division by a power of two), which
agrees with two's-complement arithmetic shift on in-range values.
-/

namespace Ruscv

/-- Configuration constants from src/config.rs. -/
def NUM_REGISTERS : Nat := 32

def TEXT_BASE : Nat := 0x00400000

def DATA_BASE : Nat := 0x10010000

def STACK_BASE : Nat := 0x7FFFFFFF

def STACK_SIZE : Nat := 1048576

/-- Reduction modulo 2^32: the value of a Rust `u32` after a wrapping operation. -/
def wrap32 (n : Nat) : Nat := n % 4294967296

/-- Rust `u32` wrapping subtraction `a.wrapping_sub b` (also plain `a - b` in
release builds) for `a b < 2^32`. -/
def wsub (a b : Nat) : Nat := (a + (4294967296 - b % 4294967296)) % 4294967296

/-- Rust `i as u32`: the two's-complement bit pattern of an `i32` value. -/
def toU32 (i : Int) : Nat := (i % 4294967296).toNat

/-- Rust `n as i32` reinterpretation of a `u32` bit pattern as a signed value. -/
def toI32 (n : Nat) : Int :=
  if n % 4294967296 < 2147483648 then (n % 4294967296 : Int)
  else (n % 4294967296 : Int) - 4294967296

/-- Rust `b as i8` reinterpretation of a byte as a signed value. -/
def toI8 (n : Nat) : Int :=
  if n % 256 < 128 then (n % 256 : Int) else (n % 256 : Int) - 256

/-- Rust `h as i16` reinterpretation of a 16-bit value as a signed value. -/
def toI16 (n : Nat) : Int :=
  if n % 65536 < 32768 then (n % 65536 : Int) else (n % 65536 : Int) - 65536

/-- Memory (src/processor.rs): three byte vectors with their base addresses. -/
structure Memory where
  text : List Nat
  data : List Nat
  stack : List Nat
  text_base : Nat
  data_base : Nat
  stack_base : Nat

/-- MemoryFault (src/processor.rs). -/
inductive MemoryFault where
  | OutOfBounds (address : Nat)
  | WriteToReadOnly (address : Nat)
  | UnalignedAccess (address : Nat)
  | ExecuteFromNonExecutable (address : Nat)
deriving DecidableEq, Repr

/-- StepError (src/processor.rs, lines 95-100).  Faithful to the source: the
enum has exactly the three variants IllegalInstruction, MemoryFault and
Ebreak; there is no Ecall variant. -/
inductive StepError where
  | IllegalInstruction
  | MemoryFault (fault : MemoryFault)
  | Ebreak
deriving DecidableEq, Repr

/-- Memory::read_byte.  The source checks `addr >= base && addr < base + len`
(the upper bound computed with wrapping `u32` addition) and then indexes the
vector; when the check passes the index is in bounds, so `getD` with default 0
is exact. -/
def Memory.read_byte (m : Memory) (address : Nat) : Except MemoryFault Nat :=
  if m.text_base ≤ address ∧ address < wrap32 (m.text_base + m.text.length) then
    .ok (m.text.getD (address - m.text_base) 0)
  else if m.data_base ≤ address ∧ address < wrap32 (m.data_base + m.data.length) then
    .ok (m.data.getD (address - m.data_base) 0)
  else if m.stack_base ≤ address ∧ address < wrap32 (m.stack_base + m.stack.length) then
    .ok (m.stack.getD (address - m.stack_base) 0)
  else
    .error (.OutOfBounds address)

/-- Memory::write_byte.  On a fault the memory is unchanged, mirroring the
early `return Err` in the source. -/
def Memory.write_byte (m : Memory) (address value : Nat) : Memory × Option MemoryFault :=
  if m.text_base ≤ address ∧ address < wrap32 (m.text_base + m.text.length) then
    ({ m with text := m.text.set (address - m.text_base) value }, none)
  else if m.data_base ≤ address ∧ address < wrap32 (m.data_base + m.data.length) then
    ({ m with data := m.data.set (address - m.data_base) value }, none)
  else if m.stack_base ≤ address ∧ address < wrap32 (m.stack_base + m.stack.length) then
    ({ m with stack := m.stack.set (address - m.stack_base) value }, none)
  else
    (m, some (.OutOfBounds address))

/-- Memory::write_half: two byte writes chained with `?`; a fault in the second
write leaves the first byte written (partial mutation is preserved). -/
def Memory.write_half (m : Memory) (address value : Nat) : Memory × Option MemoryFault :=
  match m.write_byte address (value % 256) with
  | (m1, some e) => (m1, some e)
  | (m1, none) => m1.write_byte (wrap32 (address + 1)) (value / 256 % 256)

/-- Memory::write_word: four byte writes chained with `?`. -/
def Memory.write_word (m : Memory) (address value : Nat) : Memory × Option MemoryFault :=
  match m.write_byte address (value % 256) with
  | (m1, some e) => (m1, some e)
  | (m1, none) =>
    match m1.write_byte (wrap32 (address + 1)) (value / 256 % 256) with
    | (m2, some e) => (m2, some e)
    | (m2, none) =>
      match m2.write_byte (wrap32 (address + 2)) (value / 65536 % 256) with
      | (m3, some e) => (m3, some e)
      | (m3, none) => m3.write_byte (wrap32 (address + 3)) (value / 16777216 % 256)

/-- Memory::read_half (little endian). -/
def Memory.read_half (m : Memory) (address : Nat) : Except MemoryFault Nat := do
  let byte0 ← m.read_byte address
  let byte1 ← m.read_byte (wrap32 (address + 1))
  pure (byte1 * 256 + byte0)

/-- Memory::read_word (little endian). -/
def Memory.read_word (m : Memory) (address : Nat) : Except MemoryFault Nat := do
  let byte0 ← m.read_byte address
  let byte1 ← m.read_byte (wrap32 (address + 1))
  let byte2 ← m.read_byte (wrap32 (address + 2))
  let byte3 ← m.read_byte (wrap32 (address + 3))
  pure (byte3 * 16777216 + byte2 * 65536 + byte1 * 256 + byte0)

/-- Instruction (src/processor.rs): the decoded, typed representation. -/
inductive Instruction where
  | Add (rd rs1 rs2 : Nat)
  | Sub (rd rs1 rs2 : Nat)
  | And (rd rs1 rs2 : Nat)
  | Or (rd rs1 rs2 : Nat)
  | Xor (rd rs1 rs2 : Nat)
  | Sll (rd rs1 rs2 : Nat)
  | Srl (rd rs1 rs2 : Nat)
  | Sra (rd rs1 rs2 : Nat)
  | Slt (rd rs1 rs2 : Nat)
  | Sltu (rd rs1 rs2 : Nat)
  | Addi (rd rs1 : Nat) (imm : Int)
  | Andi (rd rs1 : Nat) (imm : Int)
  | Ori (rd rs1 : Nat) (imm : Int)
  | Xori (rd rs1 : Nat) (imm : Int)
  | Slli (rd rs1 : Nat) (shamt : Nat)
  | Srli (rd rs1 : Nat) (shamt : Nat)
  | Srai (rd rs1 : Nat) (shamt : Nat)
  | Slti (rd rs1 : Nat) (imm : Int)
  | Sltiu (rd rs1 : Nat) (imm : Int)
  | Lb (rd rs1 : Nat) (imm : Int)
  | Lh (rd rs1 : Nat) (imm : Int)
  | Lw (rd rs1 : Nat) (imm : Int)
  | Lbu (rd rs1 : Nat) (imm : Int)
  | Lhu (rd rs1 : Nat) (imm : Int)
  | Sb (rs1 rs2 : Nat) (imm : Int)
  | Sh (rs1 rs2 : Nat) (imm : Int)
  | Sw (rs1 rs2 : Nat) (imm : Int)
  | Beq (rs1 rs2 : Nat) (imm : Int)
  | Bne (rs1 rs2 : Nat) (imm : Int)
  | Blt (rs1 rs2 : Nat) (imm : Int)
  | Bge (rs1 rs2 : Nat) (imm : Int)
  | Bltu (rs1 rs2 : Nat) (imm : Int)
  | Bgeu (rs1 rs2 : Nat) (imm : Int)
  | Lui (rd : Nat) (imm : Int)
  | Auipc (rd : Nat) (imm : Int)
  | Jal (rd : Nat) (imm : Int)
  | Jalr (rd rs1 : Nat) (imm : Int)
  | Ecall
  | Ebreak
deriving DecidableEq, Repr

/-- Processor (src/processor.rs).  The register file is a total map; the
simulator only ever uses indices 0-31. -/
structure Processor where
  pc : Nat
  registers : Nat → Nat
  memory : Memory

/-- Processor::decode_r_type. -/
def decode_r_type (memory_instruction : Nat) : Except StepError Instruction :=
  let rd := (memory_instruction >>> 7) &&& 0x1F
  let rs1 := (memory_instruction >>> 15) &&& 0x1F
  let rs2 := (memory_instruction >>> 20) &&& 0x1F
  let func3 := (memory_instruction >>> 12) &&& 0x7
  let func7 := (memory_instruction >>> 25) &&& 0x7F
  match func3, func7 with
  | 0x0, 0x0 => .ok (.Add rd rs1 rs2)
  | 0x0, 0x20 => .ok (.Sub rd rs1 rs2)
  | 0x4, 0x00 => .ok (.Xor rd rs1 rs2)
  | 0x6, 0x00 => .ok (.Or rd rs1 rs2)
  | 0x7, 0x00 => .ok (.And rd rs1 rs2)
  | 0x1, 0x00 => .ok (.Sll rd rs1 rs2)
  | 0x5, 0x00 => .ok (.Srl rd rs1 rs2)
  | 0x5, 0x20 => .ok (.Sra rd rs1 rs2)
  | 0x2, 0x00 => .ok (.Slt rd rs1 rs2)
  | 0x3, 0x00 => .ok (.Sltu rd rs1 rs2)
  | _, _ => .error .IllegalInstruction

/-- Processor::decode_i_shift. -/
def decode_i_shift (memory_instruction : Nat) : Except StepError Instruction :=
  let rd := (memory_instruction >>> 7) &&& 0x1F
  let rs1 := (memory_instruction >>> 15) &&& 0x1F
  let func7 := (memory_instruction >>> 25) &&& 0x7F
  let shamt := (memory_instruction >>> 20) &&& 0x1F
  let func3 := (memory_instruction >>> 12) &&& 0x7
  match func3, func7 with
  | 0x1, 0x0 => .ok (.Slli rd rs1 shamt)
  | 0x5, 0x0 => .ok (.Srli rd rs1 shamt)
  | 0x5, 0x20 => .ok (.Srai rd rs1 shamt)
  | _, _ => .error .IllegalInstruction

/-- Processor::decode_i_type.  The immediate is `(word as i32) >> 20`, an
arithmetic shift that propagates the sign. -/
def decode_i_type (memory_instruction : Nat) : Except StepError Instruction :=
  let rd := (memory_instruction >>> 7) &&& 0x1F
  let rs1 := (memory_instruction >>> 15) &&& 0x1F
  let imm : Int := toI32 memory_instruction >>> (20 : Nat)
  let func3 := (memory_instruction >>> 12) &&& 0x7
  match func3 with
  | 0x0 => .ok (.Addi rd rs1 imm)
  | 0x4 => .ok (.Xori rd rs1 imm)
  | 0x6 => .ok (.Ori rd rs1 imm)
  | 0x7 => .ok (.Andi rd rs1 imm)
  | 0x1 => decode_i_shift memory_instruction
  | 0x5 => decode_i_shift memory_instruction
  | 0x2 => .ok (.Slti rd rs1 imm)
  | 0x3 => .ok (.Sltiu rd rs1 imm)
  | _ => .error .IllegalInstruction

/-- Processor::decode_load_type. -/
def decode_load_type (memory_instruction : Nat) : Except StepError Instruction :=
  let rd := (memory_instruction >>> 7) &&& 0x1F
  let rs1 := (memory_instruction >>> 15) &&& 0x1F
  let imm : Int := toI32 memory_instruction >>> (20 : Nat)
  let func3 := (memory_instruction >>> 12) &&& 0x7
  match func3 with
  | 0x0 => .ok (.Lb rd rs1 imm)
  | 0x1 => .ok (.Lh rd rs1 imm)
  | 0x2 => .ok (.Lw rd rs1 imm)
  | 0x4 => .ok (.Lbu rd rs1 imm)
  | 0x5 => .ok (.Lhu rd rs1 imm)
  | _ => .error .IllegalInstruction

/-- Processor::decode_s_type.  In the source `imm_11_5` is the arithmetic
shift `(word as i32) >> 25` and the final immediate is `(imm_11_5 << 5) |
imm_4_0`; since the low five bits of `imm_11_5 << 5` are zero and
`0 ≤ imm_4_0 < 32`, that bitwise-or equals `imm_11_5 * 32 + imm_4_0`. -/
def decode_s_type (memory_instruction : Nat) : Except StepError Instruction :=
  let rs1 := (memory_instruction >>> 15) &&& 0x1F
  let rs2 := (memory_instruction >>> 20) &&& 0x1F
  let imm_11_5 : Int := toI32 memory_instruction >>> (25 : Nat)
  let imm_4_0 : Int := ((memory_instruction >>> 7) &&& 0x1F : Nat)
  let imm : Int := imm_11_5 * 32 + imm_4_0
  let func3 := (memory_instruction >>> 12) &&& 0x7
  match func3 with
  | 0x0 => .ok (.Sb rs1 rs2 imm)
  | 0x1 => .ok (.Sh rs1 rs2 imm)
  | 0x2 => .ok (.Sw rs1 rs2 imm)
  | _ => .error .IllegalInstruction

/-- Processor::decode_b_type.  The immediate pieces are bit slices of the
word (the source computes them with `>>` and low masks on nonnegative values);
the final `(imm << 19) >> 19` on `i32` is modelled as reinterpreting the
wrapped left shift and arithmetically shifting back. -/
def decode_b_type (memory_instruction : Nat) : Except StepError Instruction :=
  let rs1 := (memory_instruction >>> 15) &&& 0x1F
  let rs2 := (memory_instruction >>> 20) &&& 0x1F
  let imm : Int := toI32 (wrap32
    (((((memory_instruction >>> 31) &&& 0x1) <<< 12) |||
      (((memory_instruction >>> 7) &&& 0x1) <<< 11) |||
      (((memory_instruction >>> 25) &&& 0x3F) <<< 5) |||
      (((memory_instruction >>> 8) &&& 0xF) <<< 1)) <<< 19)) >>> (19 : Nat)
  let func3 := (memory_instruction >>> 12) &&& 0x7
  match func3 with
  | 0x0 => .ok (.Beq rs1 rs2 imm)
  | 0x1 => .ok (.Bne rs1 rs2 imm)
  | 0x4 => .ok (.Blt rs1 rs2 imm)
  | 0x5 => .ok (.Bge rs1 rs2 imm)
  | 0x6 => .ok (.Bltu rs1 rs2 imm)
  | 0x7 => .ok (.Bgeu rs1 rs2 imm)
  | _ => .error .IllegalInstruction

/-- Processor::decode_u_type. -/
def decode_u_type (memory_instruction : Nat) : Except StepError Instruction :=
  let rd := (memory_instruction >>> 7) &&& 0x1F
  let imm : Int := toI32 (memory_instruction &&& 0xFFFFF000)
  let opcode := memory_instruction &&& 0x7F
  match opcode with
  | 0x37 => .ok (.Lui rd imm)
  | 0x17 => .ok (.Auipc rd imm)
  | _ => .error .IllegalInstruction

/-- Processor::decode_j_type.  `((imm as i32) << 11) >> 11` sign-extends from
bit 20, modelled like the B-type case. -/
def decode_j_type (memory_instruction : Nat) : Except StepError Instruction :=
  let rd := (memory_instruction >>> 7) &&& 0x1F
  let imm : Int := toI32 (wrap32
    (((((memory_instruction >>> 31) &&& 0x1) <<< 20) |||
      (((memory_instruction >>> 12) &&& 0xFF) <<< 12) |||
      (((memory_instruction >>> 20) &&& 0x1) <<< 11) |||
      (((memory_instruction >>> 21) &&& 0x3FF) <<< 1)) <<< 11)) >>> (11 : Nat)
  .ok (.Jal rd imm)

/-- Processor::decode_jalr_type. -/
def decode_jalr_type (memory_instruction : Nat) : Except StepError Instruction :=
  let rd := (memory_instruction >>> 7) &&& 0x1F
  let rs1 := (memory_instruction >>> 15) &&& 0x1F
  let imm : Int := toI32 memory_instruction >>> (20 : Nat)
  let func3 := (memory_instruction >>> 12) &&& 0x7
  if func3 ≠ 0x0 then .error .IllegalInstruction
  else .ok (.Jalr rd rs1 imm)

/-- Processor::decode_system_type. -/
def decode_system_type (memory_instruction : Nat) : Except StepError Instruction :=
  let imm := (memory_instruction >>> 20) &&& 0xFFF
  match imm with
  | 0x0 => .ok .Ecall
  | 0x1 => .ok .Ebreak
  | _ => .error .IllegalInstruction

/-- Processor::decode: dispatch on the opcode in bits 6:0. -/
def decode (memory_instruction : Nat) : Except StepError Instruction :=
  let opcode := memory_instruction &&& 0x7F
  match opcode with
  | 0b0110011 => decode_r_type memory_instruction
  | 0b0010011 => decode_i_type memory_instruction
  | 0b0000011 => decode_load_type memory_instruction
  | 0b0100011 => decode_s_type memory_instruction
  | 0b1100011 => decode_b_type memory_instruction
  | 0b1101111 => decode_j_type memory_instruction
  | 0b1100111 => decode_jalr_type memory_instruction
  | 0b0110111 => decode_u_type memory_instruction
  | 0b0010111 => decode_u_type memory_instruction
  | 0b1110011 => decode_system_type memory_instruction
  | _ => .error .IllegalInstruction

/-- Processor::read_register: index 0 always reads as 0. -/
def Processor.read_register (p : Processor) (index : Nat) : Nat :=
  if index = 0 then 0 else p.registers index

/-- Processor::write_register: writes to index 0 are discarded. -/
def Processor.write_register (p : Processor) (index value : Nat) : Processor :=
  if index = 0 then p
  else { p with registers := fun i => if i = index then value else p.registers i }

/-- Processor::fetch: read four little-endian bytes of text at offset
`pc - text_base` (wrapping `u32` subtraction).  A missing slice yields
`MemoryFault(OutOfBounds(pc))`; when the slice exists the `try_into().unwrap()`
always succeeds, so the function is total. -/
def Processor.fetch (p : Processor) : Except StepError Nat :=
  let offset := wsub p.pc p.memory.text_base
  if offset + 4 ≤ p.memory.text.length then
    .ok (p.memory.text.getD (offset + 3) 0 * 16777216 +
         p.memory.text.getD (offset + 2) 0 * 65536 +
         p.memory.text.getD (offset + 1) 0 * 256 +
         p.memory.text.getD offset 0)
  else
    .error (.MemoryFault (.OutOfBounds p.pc))

/-- Processor::execute.  Returns the successor state together with an optional
error; on an error the state carries exactly the mutations made before the
failing operation (the source returns early with `?`, leaving `self` partially
updated, and only commits `pc = next_pc` on full success).  The `Ecall` and
`Ebreak` variants fall into the catch-all arm of the source match, which
returns `Err(StepError::IllegalInstruction)`. -/
def Processor.execute (p : Processor) (instruction : Instruction) : Processor × Option StepError :=
  let next_pc := wrap32 (p.pc + 4)
  match instruction with
  | .Add rd rs1 rs2 =>
    let result := wrap32 (p.read_register rs1 + p.read_register rs2)
    ({ p.write_register rd result with pc := next_pc }, none)
  | .Sub rd rs1 rs2 =>
    let result := wsub (p.read_register rs1) (p.read_register rs2)
    ({ p.write_register rd result with pc := next_pc }, none)
  | .Or rd rs1 rs2 =>
    ({ p.write_register rd (p.read_register rs1 ||| p.read_register rs2) with pc := next_pc }, none)
  | .And rd rs1 rs2 =>
    ({ p.write_register rd (p.read_register rs1 &&& p.read_register rs2) with pc := next_pc }, none)
  | .Xor rd rs1 rs2 =>
    ({ p.write_register rd (p.read_register rs1 ^^^ p.read_register rs2) with pc := next_pc }, none)
  | .Sll rd rs1 rs2 =>
    let shamt := p.read_register rs2 &&& 0x1F
    ({ p.write_register rd (wrap32 (p.read_register rs1 <<< shamt)) with pc := next_pc }, none)
  | .Srl rd rs1 rs2 =>
    let shamt := p.read_register rs2 &&& 0x1F
    ({ p.write_register rd (p.read_register rs1 >>> shamt) with pc := next_pc }, none)
  | .Sra rd rs1 rs2 =>
    let shamt := p.read_register rs2 &&& 0x1F
    let result := toI32 (p.read_register rs1) >>> shamt
    ({ p.write_register rd (toU32 result) with pc := next_pc }, none)
  | .Slt rd rs1 rs2 =>
    let result := if toI32 (p.read_register rs1) < toI32 (p.read_register rs2) then 1 else 0
    ({ p.write_register rd result with pc := next_pc }, none)
  | .Sltu rd rs1 rs2 =>
    let result := if p.read_register rs1 < p.read_register rs2 then 1 else 0
    ({ p.write_register rd result with pc := next_pc }, none)
  | .Addi rd rs1 imm =>
    let result := wrap32 (p.read_register rs1 + toU32 imm)
    ({ p.write_register rd result with pc := next_pc }, none)
  | .Xori rd rs1 imm =>
    ({ p.write_register rd (p.read_register rs1 ^^^ toU32 imm) with pc := next_pc }, none)
  | .Ori rd rs1 imm =>
    ({ p.write_register rd (p.read_register rs1 ||| toU32 imm) with pc := next_pc }, none)
  | .Andi rd rs1 imm =>
    ({ p.write_register rd (p.read_register rs1 &&& toU32 imm) with pc := next_pc }, none)
  | .Slli rd rs1 shamt =>
    ({ p.write_register rd (wrap32 (p.read_register rs1 <<< shamt)) with pc := next_pc }, none)
  | .Srli rd rs1 shamt =>
    ({ p.write_register rd (p.read_register rs1 >>> shamt) with pc := next_pc }, none)
  | .Srai rd rs1 shamt =>
    let result := toI32 (p.read_register rs1) >>> shamt
    ({ p.write_register rd (toU32 result) with pc := next_pc }, none)
  | .Slti rd rs1 imm =>
    let result := if toI32 (p.read_register rs1) < imm then 1 else 0
    ({ p.write_register rd result with pc := next_pc }, none)
  | .Sltiu rd rs1 imm =>
    let result := if p.read_register rs1 < toU32 imm then 1 else 0
    ({ p.write_register rd result with pc := next_pc }, none)
  | .Lb rd rs1 imm =>
    let address := wrap32 (p.read_register rs1 + toU32 imm)
    match p.memory.read_byte address with
    | .error e => (p, some (.MemoryFault e))
    | .ok value => ({ p.write_register rd (toU32 (toI8 value)) with pc := next_pc }, none)
  | .Lh rd rs1 imm =>
    let address := wrap32 (p.read_register rs1 + toU32 imm)
    match p.memory.read_half address with
    | .error e => (p, some (.MemoryFault e))
    | .ok value => ({ p.write_register rd (toU32 (toI16 value)) with pc := next_pc }, none)
  | .Lw rd rs1 imm =>
    let address := wrap32 (p.read_register rs1 + toU32 imm)
    match p.memory.read_word address with
    | .error e => (p, some (.MemoryFault e))
    | .ok value => ({ p.write_register rd value with pc := next_pc }, none)
  | .Lbu rd rs1 imm =>
    let address := wrap32 (p.read_register rs1 + toU32 imm)
    match p.memory.read_byte address with
    | .error e => (p, some (.MemoryFault e))
    | .ok value => ({ p.write_register rd value with pc := next_pc }, none)
  | .Lhu rd rs1 imm =>
    let address := wrap32 (p.read_register rs1 + toU32 imm)
    match p.memory.read_half address with
    | .error e => (p, some (.MemoryFault e))
    | .ok value => ({ p.write_register rd value with pc := next_pc }, none)
  | .Sb rs1 rs2 imm =>
    let address := wrap32 (p.read_register rs1 + toU32 imm)
    match p.memory.write_byte address (p.read_register rs2 % 256) with
    | (m, some e) => ({ p with memory := m }, some (.MemoryFault e))
    | (m, none) => ({ p with memory := m, pc := next_pc }, none)
  | .Sh rs1 rs2 imm =>
    let address := wrap32 (p.read_register rs1 + toU32 imm)
    match p.memory.write_half address (p.read_register rs2 % 65536) with
    | (m, some e) => ({ p with memory := m }, some (.MemoryFault e))
    | (m, none) => ({ p with memory := m, pc := next_pc }, none)
  | .Sw rs1 rs2 imm =>
    let address := wrap32 (p.read_register rs1 + toU32 imm)
    match p.memory.write_word address (p.read_register rs2) with
    | (m, some e) => ({ p with memory := m }, some (.MemoryFault e))
    | (m, none) => ({ p with memory := m, pc := next_pc }, none)
  | .Beq rs1 rs2 imm =>
    let next_pc := if p.read_register rs1 = p.read_register rs2
      then wrap32 (p.pc + toU32 imm) else next_pc
    ({ p with pc := next_pc }, none)
  | .Bne rs1 rs2 imm =>
    let next_pc := if p.read_register rs1 ≠ p.read_register rs2
      then wrap32 (p.pc + toU32 imm) else next_pc
    ({ p with pc := next_pc }, none)
  | .Blt rs1 rs2 imm =>
    let next_pc := if toI32 (p.read_register rs1) < toI32 (p.read_register rs2)
      then wrap32 (p.pc + toU32 imm) else next_pc
    ({ p with pc := next_pc }, none)
  | .Bge rs1 rs2 imm =>
    let next_pc := if toI32 (p.read_register rs1) ≥ toI32 (p.read_register rs2)
      then wrap32 (p.pc + toU32 imm) else next_pc
    ({ p with pc := next_pc }, none)
  | .Bltu rs1 rs2 imm =>
    let next_pc := if p.read_register rs1 < p.read_register rs2
      then wrap32 (p.pc + toU32 imm) else next_pc
    ({ p with pc := next_pc }, none)
  | .Bgeu rs1 rs2 imm =>
    let next_pc := if p.read_register rs1 ≥ p.read_register rs2
      then wrap32 (p.pc + toU32 imm) else next_pc
    ({ p with pc := next_pc }, none)
  | .Jal rd imm =>
    let p1 := p.write_register rd (wrap32 (p.pc + 4))
    ({ p1 with pc := wrap32 (p.pc + toU32 imm) }, none)
  | .Jalr rd rs1 imm =>
    let p1 := p.write_register rd (wrap32 (p.pc + 4))
    let next_pc := wrap32 (p1.read_register rs1 + toU32 imm) &&& 0xFFFFFFFE
    ({ p1 with pc := next_pc }, none)
  | .Lui rd imm =>
    ({ p.write_register rd (toU32 imm) with pc := next_pc }, none)
  | .Auipc rd imm =>
    ({ p.write_register rd (wrap32 (p.pc + toU32 imm)) with pc := next_pc }, none)
  | .Ecall => (p, some .IllegalInstruction)
  | .Ebreak => (p, some .IllegalInstruction)

/-- Processor::step: fetch, decode, execute. -/
def Processor.step (p : Processor) : Processor × Option StepError :=
  match p.fetch with
  | .error e => (p, some e)
  | .ok memory_instruction =>
    match decode memory_instruction with
    | .error e => (p, some e)
    | .ok instruction => p.execute instruction

end Ruscv

namespace Ruscv

/-- Token (src/lexer.rs). -/
inductive Token where
  | Instruction (name : String)
  | Register (n : Nat)
  | Immediate (val : Int)
  | StringLiteral (s : String)
  | Label (name : String)
  | Colon
  | Directive (name : String)
  | Comma
  | LParenthesis
  | RParenthesis
  | Newline
  | Eof
deriving DecidableEq, Repr

/-- Rust char::to_digit: the numeric value of a digit character in the given
radix, if any. -/
def to_digit (c : Char) (radix : Nat) : Option Nat :=
  let d :=
    if '0' ≤ c ∧ c ≤ '9' then some (c.toNat - 48)
    else if 'a' ≤ c ∧ c ≤ 'z' then some (c.toNat - 97 + 10)
    else if 'A' ≤ c ∧ c ≤ 'Z' then some (c.toNat - 65 + 10)
    else none
  match d with
  | some v => if v < radix then some v else none
  | none => none

/-- Rust char::is_digit. -/
def is_digit (c : Char) (radix : Nat) : Bool := (to_digit c radix).isSome

/-- Rust i32::from_str_radix on an unsigned digit string: fails on an empty
string, on a non-digit character, and on overflow past i32::MAX. -/
def from_str_radix_i32 (s : List Char) (radix : Nat) : Option Int :=
  if s.isEmpty then none
  else
    match s.foldl (fun acc c => match acc, to_digit c radix with
      | some v, some d => some (v * radix + d)
      | _, _ => none) (some 0) with
    | none => none
    | some v => if v ≤ 2147483647 then some (v : Int) else none

/-- The digit-consuming loop of read_number: take characters while they are
digits of the radix (the source also re-tests hex digits, which is subsumed
by `is_digit 16`). -/
def read_number_digits (chars : List Char) (radix : Nat) : List Char × List Char :=
  (chars.takeWhile (fun c => is_digit c radix), chars.dropWhile (fun c => is_digit c radix))

/-- read_number (src/lexer.rs, lines 175-217): parse a numeric literal.
Returns the produced token and the unconsumed characters.  Mirrors the
source's `i32::from_str_radix(..).unwrap_or(0)`: an out-of-range literal
silently becomes the immediate 0. -/
def read_number (first_char : Char) (chars : List Char) : Token × List Char :=
  let is_negative := first_char = '-'
  let (next_digit, chars) :=
    if is_negative then (chars.headD ' ', chars.tail) else (first_char, chars)
  let (number_str0, radix, chars) :=
    if next_digit = '0' then
      match chars with
      | c :: rest =>
        if c = 'x' ∨ c = 'X' then (([] : List Char), 16, rest)
        else if c = 'b' ∨ c = 'B' then (([] : List Char), 2, rest)
        else if c = 'o' ∨ c = 'O' then (([] : List Char), 8, rest)
        else (['0'], 10, chars)
      | [] => (['0'], 10, chars)
    else ([next_digit], 10, chars)
  let (digits, chars) := read_number_digits chars radix
  let number_str := number_str0 ++ digits
  let val := (from_str_radix_i32 number_str radix).getD 0
  let val := if is_negative then -val else val
  (.Immediate val, chars)

/-- Rust str::parse::<u8> on the tail of an identifier: digits only (an
identifier cannot contain a sign), value at most 255. -/
def parse_u8 (s : List Char) : Option Nat :=
  if s.isEmpty then none
  else
    match s.foldl (fun acc c => match acc, to_digit c 10 with
      | some v, some d => some (v * 10 + d)
      | _, _ => none) (some 0) with
    | none => none
    | some v => if v ≤ 255 then some v else none

/-- abi_to_register (src/lexer.rs). -/
def abi_to_register (ident : String) : Option Nat :=
  match ident with
  | "zero" => some 0
  | "ra" => some 1
  | "sp" => some 2
  | "gp" => some 3
  | "tp" => some 4
  | "t0" => some 5
  | "t1" => some 6
  | "t2" => some 7
  | "s0" => some 8
  | "fp" => some 8
  | "s1" => some 9
  | "a0" => some 10
  | "a1" => some 11
  | "a2" => some 12
  | "a3" => some 13
  | "a4" => some 14
  | "a5" => some 15
  | "a6" => some 16
  | "a7" => some 17
  | "s2" => some 18
  | "s3" => some 19
  | "s4" => some 20
  | "s5" => some 21
  | "s6" => some 22
  | "s7" => some 23
  | "s8" => some 24
  | "s9" => some 25
  | "s10" => some 26
  | "s11" => some 27
  | "t3" => some 28
  | "t4" => some 29
  | "t5" => some 30
  | "t6" => some 31
  | _ => none

/-- classify_identifier (src/lexer.rs, lines 219-242).  First `xN` register
forms, then ABI aliases, then the mnemonic list exactly as written in the
source match, otherwise a label. -/
def classify_identifier (ident : String) : Token :=
  let xreg : Option Nat :=
    match ident.data with
    | 'x' :: rest =>
      if rest.isEmpty then none
      else
        match parse_u8 rest with
        | some num => if num ≤ 31 then some num else none
        | none => none
    | _ => none
  match xreg with
  | some num => .Register num
  | none =>
    match abi_to_register ident with
    | some reg_num => .Register reg_num
    | none =>
      match ident with
      | "add" | "sub" | "and" | "or" | "xor" | "sll" | "srl" | "sra" | "slt" | "sltu"
      | "addi" | "andi" | "ori" | "xori" | "slli" | "srli" | "srai" | "slti" | "sltiu"
      | "lw" | "sw" | "beq" | "bne" | "blt" | "bge" | "jal" | "jalr" =>
        .Instruction ident
      | _ => .Label ident

/-- MemoryOffset (src/parser.rs). -/
inductive MemoryOffset where
  | Immediate (val : Int)
  | Label (name : String)
deriving DecidableEq, Repr

/-- Operand (src/parser.rs). -/
inductive Operand where
  | Register (n : Nat)
  | Immediate (val : Int)
  | Label (name : String)
  | StringLiteral (s : String)
  | Memory (offset : MemoryOffset) (reg : Nat)
deriving DecidableEq, Repr

/-- SymbolTable (src/symbols.rs): label-to-address map, modelled as an
association list. -/
def SymbolTable := List (String × Nat)

/-- SymbolTable::get_address. -/
def SymbolTable.get_address (t : SymbolTable) (name : String) : Option Nat :=
  match t with
  | [] => none
  | (k, v) :: rest => if k = name then some v else SymbolTable.get_address rest name

/-- encode_r_type (src/assembler.rs, lines 160-166). -/
def encode_r_type (opcode funct3 funct7 : Nat) (ops : List Operand) : Except String Nat :=
  match ops with
  | [.Register rd, .Register rs1, .Register rs2] =>
    .ok ((funct7 <<< 25) ||| (rs2 <<< 20) ||| (rs1 <<< 15) ||| (funct3 <<< 12) |||
         (rd <<< 7) ||| opcode)
  | _ => .error "Invalid operands for R-type instruction: expected 3 registers (rd, rs1, rs2)"

/-- encode_i_type (src/assembler.rs, lines 168-175).  The immediate is used
unchecked: `(imm as u32) << 20` wraps, silently discarding bits above 11. -/
def encode_i_type (opcode funct3 : Nat) (ops : List Operand)
    (_sym_table : SymbolTable) (_current_pc : Nat) : Except String Nat :=
  match ops with
  | [.Register rd, .Register rs1, .Immediate imm] =>
    .ok (wrap32 (toU32 imm <<< 20) ||| (rs1 <<< 15) ||| (funct3 <<< 12) |||
         (rd <<< 7) ||| opcode)
  | _ => .error "Invalid operands for I-type instruction: expected register, register, immediate"

/-- encode_i_shift (src/assembler.rs, lines 177-199). -/
def encode_i_shift (opcode funct3 funct7 : Nat) (ops : List Operand) : Except String Nat :=
  match ops with
  | [.Register rd, .Register rs1, .Immediate shamt] =>
    if shamt < 0 ∨ shamt > 31 then .error "Shift amount out of range (0-31)"
    else
      .ok ((funct7 <<< 25) ||| (toU32 shamt <<< 20) ||| (rs1 <<< 15) ||| (funct3 <<< 12) |||
           (rd <<< 7) ||| opcode)
  | _ => .error "Invalid operands for shift instruction: expected rd, rs1, shamt"

/-- encode_s_type (src/assembler.rs, lines 201-236).  The resolved immediate
is truncated to its low 12 bits with `& 0xFFF` before being split. -/
def encode_s_type (opcode funct3 : Nat) (ops : List Operand)
    (sym_table : SymbolTable) (_current_pc : Nat) : Except String Nat :=
  match ops with
  | [.Register rs2, .Memory offset reg] =>
    let imm_val : Except String Int :=
      match offset with
      | .Immediate val => .ok val
      | .Label name =>
        match sym_table.get_address name with
        | some a => .ok (toI32 a)
        | none => .error "Unknown label"
    match imm_val with
    | .error e => .error e
    | .ok imm_val =>
      let imm := toU32 imm_val &&& 0xFFF
      let imm_11_5 := (imm >>> 5) &&& 0x7F
      let imm_4_0 := imm &&& 0x1F
      .ok ((imm_11_5 <<< 25) ||| (rs2 <<< 20) ||| (reg <<< 15) ||| (funct3 <<< 12) |||
           (imm_4_0 <<< 7) ||| opcode)
  | _ => .error "Invalid operands for S-type instruction: expected reg, offset(reg)"

/-- encode_b_type (src/assembler.rs, lines 238-249).  Only an immediate third
operand is accepted; a label operand falls into the error arm (the intended
`resolve_immediate` call is commented out in the source).  The immediate's
bit 0 is silently dropped.  The bit slices `(imm_val >> k) & mask` on `i32`
are the corresponding bit slices of the two's-complement pattern. -/
def encode_b_type (opcode funct3 : Nat) (ops : List Operand)
    (_sym_table : SymbolTable) (_current_pc : Nat) : Except String Nat :=
  match ops with
  | [.Register rs1, .Register rs2, .Immediate imm] =>
    let pattern := toU32 imm
    let imm_12 := (pattern >>> 12) &&& 0x1
    let imm_10_5 := (pattern >>> 5) &&& 0x3F
    let imm_4_1 := (pattern >>> 1) &&& 0xF
    let imm_11 := (pattern >>> 11) &&& 0x1
    .ok ((imm_12 <<< 31) ||| (imm_10_5 <<< 25) ||| (rs2 <<< 20) ||| (rs1 <<< 15) |||
         (funct3 <<< 12) ||| (imm_4_1 <<< 8) ||| (imm_11 <<< 7) ||| opcode)
  | _ => .error "Invalid operands for B-type instruction: expected register, register, immediate"

/-- encode_j_type (src/assembler.rs, lines 251-262).  Only an immediate second
operand is accepted; a label operand falls into the error arm. -/
def encode_j_type (opcode : Nat) (ops : List Operand)
    (_sym_table : SymbolTable) (_current_pc : Nat) : Except String Nat :=
  match ops with
  | [.Register rd, .Immediate imm] =>
    let pattern := toU32 imm
    let imm_20 := (pattern >>> 20) &&& 0x1
    let imm_10_1 := (pattern >>> 1) &&& 0x3FF
    let imm_11 := (pattern >>> 11) &&& 0x1
    let imm_19_12 := (pattern >>> 12) &&& 0xFF
    .ok ((imm_20 <<< 31) ||| (imm_19_12 <<< 12) ||| (imm_11 <<< 20) ||| (imm_10_1 <<< 21) |||
         (rd <<< 7) ||| opcode)
  | _ => .error "Invalid operands for J-type instruction: expected register, immediate"

/-- encode_instruction (src/assembler.rs, lines 98-158).  Note that `lui` and
`auipc` are commented out in the source and therefore fall through to the
unsupported-instruction error. -/
def encode_instruction (name : String) (ops : List Operand)
    (sym_table : SymbolTable) (current_pc : Nat) : Except String Nat :=
  match name with
  | "add" => encode_r_type 0x33 0x0 0x00 ops
  | "sub" => encode_r_type 0x33 0x0 0x20 ops
  | "sll" => encode_r_type 0x33 0x1 0x00 ops
  | "slt" => encode_r_type 0x33 0x2 0x00 ops
  | "sltu" => encode_r_type 0x33 0x3 0x00 ops
  | "xor" => encode_r_type 0x33 0x4 0x00 ops
  | "srl" => encode_r_type 0x33 0x5 0x00 ops
  | "sra" => encode_r_type 0x33 0x5 0x20 ops
  | "or" => encode_r_type 0x33 0x6 0x00 ops
  | "and" => encode_r_type 0x33 0x7 0x00 ops
  | "addi" => encode_i_type 0x13 0x0 ops sym_table current_pc
  | "slti" => encode_i_type 0x13 0x2 ops sym_table current_pc
  | "sltiu" => encode_i_type 0x13 0x3 ops sym_table current_pc
  | "xori" => encode_i_type 0x13 0x4 ops sym_table current_pc
  | "ori" => encode_i_type 0x13 0x6 ops sym_table current_pc
  | "andi" => encode_i_type 0x13 0x7 ops sym_table current_pc
  | "slli" => encode_i_shift 0x13 0x1 0x00 ops
  | "srli" => encode_i_shift 0x13 0x5 0x00 ops
  | "srai" => encode_i_shift 0x13 0x5 0x20 ops
  | "lb" => encode_i_type 0x03 0x0 ops sym_table current_pc
  | "lh" => encode_i_type 0x03 0x1 ops sym_table current_pc
  | "lw" => encode_i_type 0x03 0x2 ops sym_table current_pc
  | "lbu" => encode_i_type 0x03 0x4 ops sym_table current_pc
  | "lhu" => encode_i_type 0x03 0x5 ops sym_table current_pc
  | "jalr" => encode_i_type 0x67 0x0 ops sym_table current_pc
  | "sb" => encode_s_type 0x23 0x0 ops sym_table current_pc
  | "sh" => encode_s_type 0x23 0x1 ops sym_table current_pc
  | "sw" => encode_s_type 0x23 0x2 ops sym_table current_pc
  | "beq" => encode_b_type 0x63 0x0 ops sym_table current_pc
  | "bne" => encode_b_type 0x63 0x1 ops sym_table current_pc
  | "blt" => encode_b_type 0x63 0x4 ops sym_table current_pc
  | "bge" => encode_b_type 0x63 0x5 ops sym_table current_pc
  | "bltu" => encode_b_type 0x63 0x6 ops sym_table current_pc
  | "bgeu" => encode_b_type 0x63 0x7 ops sym_table current_pc
  | "jal" => encode_j_type 0x6F ops sym_table current_pc
  | "ecall" => .ok 0x00000073
  | "ebreak" => .ok 0x00100073
  | "fence" => .ok 0x0000000F
  | _ => .error "Unsupported instruction"

end Ruscv

namespace Ruscv

/-- Disjoint bitwise-or is addition: when the low `k` bits of `a` are zero and
`b` fits in them, `a ||| b = a + b`. -/
theorem or_add_of_mod (a b c : Nat) (hmod : a % c = 0) (hb : b < c) (hpow : ∃ k, c = 2 ^ k) :
    a ||| b = a + b := by
  obtain ⟨k, rfl⟩ := hpow
  obtain ⟨q, rfl⟩ := Nat.dvd_of_mod_eq_zero hmod
  exact (Nat.mul_add_lt_is_or hb q).symm

/-- Masking with an all-ones constant is reduction modulo the next power of two. -/
theorem and_two_pow_sub_one (n k m : Nat) (h : m = 2 ^ k - 1) : n &&& m = n % (m + 1) := by
  subst h
  rw [Nat.and_pow_two_sub_one_eq_mod]
  congr 1
  exact (Nat.sub_add_cancel Nat.one_le_two_pow).symm

/-- Field extraction: shift right then mask. -/
theorem extract_bits (w k m result : Nat) (hmask : ∃ j, m + 1 = 2 ^ j)
    (h : w / 2 ^ k % (m + 1) = result) : (w >>> k) &&& m = result := by
  obtain ⟨j, hj⟩ := hmask
  rw [Nat.shiftRight_eq_div_pow, and_two_pow_sub_one _ j m (by omega), h]

/-- Field extraction at bit 0: mask only. -/
theorem extract_low (w m result : Nat) (hmask : ∃ j, m + 1 = 2 ^ j)
    (h : w % (m + 1) = result) : w &&& m = result := by
  obtain ⟨j, hj⟩ := hmask
  rw [and_two_pow_sub_one _ j m (by omega), h]

/-- R-type (also S-type and shift-immediate) word layout: the bitwise-or of
the six fields equals the positional sum. -/
theorem r_word_sum (f7 rs2 rs1 f3 rd op : Nat) (hf7 : f7 < 128) (h2 : rs2 < 32)
    (h1 : rs1 < 32) (h3 : f3 < 8) (hd : rd < 32) (hop : op < 128) :
    (f7 <<< 25) ||| (rs2 <<< 20) ||| (rs1 <<< 15) ||| (f3 <<< 12) ||| (rd <<< 7) ||| op
      = (f7 * 32 + rs2) * 1048576 + rs1 * 32768 + f3 * 4096 + rd * 128 + op := by
  simp only [Nat.shiftLeft_eq]
  rw [or_add_of_mod (f7 * 2 ^ 25) (rs2 * 2 ^ 20) (2 ^ 25) (by omega) (by omega) ⟨25, rfl⟩]
  rw [or_add_of_mod (f7 * 2 ^ 25 + rs2 * 2 ^ 20) (rs1 * 2 ^ 15) (2 ^ 20)
    (by omega) (by omega) ⟨20, rfl⟩]
  rw [or_add_of_mod (f7 * 2 ^ 25 + rs2 * 2 ^ 20 + rs1 * 2 ^ 15) (f3 * 2 ^ 12) (2 ^ 15)
    (by omega) (by omega) ⟨15, rfl⟩]
  rw [or_add_of_mod (f7 * 2 ^ 25 + rs2 * 2 ^ 20 + rs1 * 2 ^ 15 + f3 * 2 ^ 12) (rd * 2 ^ 7)
    (2 ^ 12) (by omega) (by omega) ⟨12, rfl⟩]
  rw [or_add_of_mod (f7 * 2 ^ 25 + rs2 * 2 ^ 20 + rs1 * 2 ^ 15 + f3 * 2 ^ 12 + rd * 2 ^ 7)
    op (2 ^ 7) (by omega) (by omega) ⟨7, rfl⟩]
  omega

/-- Decoding the Add word recovers the three register fields. -/
theorem decode_word_add (a b d : Nat) (ha : a < 32) (hb : b < 32) (hd : d < 32) :
    decode ((0 * 32 + a) * 1048576 + b * 32768 + 0 * 4096 + d * 128 + 51) = .ok (.Add d b a) := by
  set w := (0 * 32 + a) * 1048576 + b * 32768 + 0 * 4096 + d * 128 + 51 with hw
  unfold decode
  rw [extract_low w 127 51 ⟨7, rfl⟩ (by omega)]
  unfold decode_r_type
  rw [extract_bits w 12 7 0 ⟨3, rfl⟩ (by omega), extract_bits w 25 127 0 ⟨7, rfl⟩ (by omega)]
  rw [extract_bits w 7 31 d ⟨5, rfl⟩ (by omega), extract_bits w 15 31 b ⟨5, rfl⟩ (by omega),
      extract_bits w 20 31 a ⟨5, rfl⟩ (by omega)]

end Ruscv

namespace Ruscv

/-- Sign extension from bit 11, as the decoder's arithmetic shift produces it. -/
def i32ext12 (n : Nat) : Int := if n < 2048 then (n : Int) else (n : Int) - 4096

/-- Sign extension from bit 12 (B-type immediates). -/
def i32ext13 (n : Nat) : Int := if n < 4096 then (n : Int) else (n : Int) - 8192

/-- Sign extension from bit 20 (J-type immediates). -/
def i32ext21 (n : Nat) : Int := if n < 1048576 then (n : Int) else (n : Int) - 2097152

/-- S-type immediate reassembly from its two fields as the decoder computes it. -/
def s_imm (a11 d : Nat) : Int :=
  (if a11 < 64 then (a11 : Int) else (a11 : Int) - 128) * 32 + (d : Nat)

/-- The decoder's I-type immediate: arithmetic shift of the reinterpreted word. -/
theorem extract_i_imm (w a rest : Nat) (hw : w = a * 1048576 + rest) (ha : a < 4096)
    (hrest : rest < 1048576) : toI32 w >>> (20 : Nat) = i32ext12 a := by
  subst hw
  unfold toI32 i32ext12
  rw [Int.shiftRight_eq_div_pow]
  split <;> split <;> omega

/-- The decoder's S-type upper immediate field. -/
theorem extract_s11 (w a rest : Nat) (hw : w = a * 33554432 + rest) (ha : a < 128)
    (hrest : rest < 33554432) :
    toI32 w >>> (25 : Nat) = if a < 64 then (a : Int) else (a : Int) - 128 := by
  subst hw
  unfold toI32
  rw [Int.shiftRight_eq_div_pow]
  split <;> split <;> omega

/-- The decoder's B-type sign extension `(imm << 19) >> 19`. -/
theorem extract_sext13 (n : Nat) (hn : n < 8192) :
    toI32 (wrap32 (n * 2 ^ 19)) >>> (19 : Nat) = i32ext13 n := by
  unfold wrap32 toI32 i32ext13
  rw [Int.shiftRight_eq_div_pow]
  split <;> split <;> omega

/-- The decoder's J-type sign extension `(imm << 11) >> 11`. -/
theorem extract_sext21 (n : Nat) (hn : n < 2097152) :
    toI32 (wrap32 (n * 2 ^ 11)) >>> (11 : Nat) = i32ext21 n := by
  unfold wrap32 toI32 i32ext21
  rw [Int.shiftRight_eq_div_pow]
  split <;> split <;> omega

/-- Decoding the Sub word. -/
theorem decode_word_sub (a b d : Nat) (ha : a < 32) (hb : b < 32) (hd : d < 32) :
    decode ((32 * 32 + a) * 1048576 + b * 32768 + 0 * 4096 + d * 128 + 51) = .ok (.Sub d b a) := by
  set w := (32 * 32 + a) * 1048576 + b * 32768 + 0 * 4096 + d * 128 + 51 with hw
  unfold decode
  rw [extract_low w 127 51 ⟨7, rfl⟩ (by omega)]
  unfold decode_r_type
  rw [extract_bits w 12 7 0 ⟨3, rfl⟩ (by omega), extract_bits w 25 127 32 ⟨7, rfl⟩ (by omega)]
  rw [extract_bits w 7 31 d ⟨5, rfl⟩ (by omega), extract_bits w 15 31 b ⟨5, rfl⟩ (by omega),
      extract_bits w 20 31 a ⟨5, rfl⟩ (by omega)]

/-- Decoding the Sll word. -/
theorem decode_word_sll (a b d : Nat) (ha : a < 32) (hb : b < 32) (hd : d < 32) :
    decode ((0 * 32 + a) * 1048576 + b * 32768 + 1 * 4096 + d * 128 + 51) = .ok (.Sll d b a) := by
  set w := (0 * 32 + a) * 1048576 + b * 32768 + 1 * 4096 + d * 128 + 51 with hw
  unfold decode
  rw [extract_low w 127 51 ⟨7, rfl⟩ (by omega)]
  unfold decode_r_type
  rw [extract_bits w 12 7 1 ⟨3, rfl⟩ (by omega), extract_bits w 25 127 0 ⟨7, rfl⟩ (by omega)]
  rw [extract_bits w 7 31 d ⟨5, rfl⟩ (by omega), extract_bits w 15 31 b ⟨5, rfl⟩ (by omega),
      extract_bits w 20 31 a ⟨5, rfl⟩ (by omega)]

/-- Decoding the Slt word. -/
theorem decode_word_slt (a b d : Nat) (ha : a < 32) (hb : b < 32) (hd : d < 32) :
    decode ((0 * 32 + a) * 1048576 + b * 32768 + 2 * 4096 + d * 128 + 51) = .ok (.Slt d b a) := by
  set w := (0 * 32 + a) * 1048576 + b * 32768 + 2 * 4096 + d * 128 + 51 with hw
  unfold decode
  rw [extract_low w 127 51 ⟨7, rfl⟩ (by omega)]
  unfold decode_r_type
  rw [extract_bits w 12 7 2 ⟨3, rfl⟩ (by omega), extract_bits w 25 127 0 ⟨7, rfl⟩ (by omega)]
  rw [extract_bits w 7 31 d ⟨5, rfl⟩ (by omega), extract_bits w 15 31 b ⟨5, rfl⟩ (by omega),
      extract_bits w 20 31 a ⟨5, rfl⟩ (by omega)]

/-- Decoding the Sltu word. -/
theorem decode_word_sltu (a b d : Nat) (ha : a < 32) (hb : b < 32) (hd : d < 32) :
    decode ((0 * 32 + a) * 1048576 + b * 32768 + 3 * 4096 + d * 128 + 51) = .ok (.Sltu d b a) := by
  set w := (0 * 32 + a) * 1048576 + b * 32768 + 3 * 4096 + d * 128 + 51 with hw
  unfold decode
  rw [extract_low w 127 51 ⟨7, rfl⟩ (by omega)]
  unfold decode_r_type
  rw [extract_bits w 12 7 3 ⟨3, rfl⟩ (by omega), extract_bits w 25 127 0 ⟨7, rfl⟩ (by omega)]
  rw [extract_bits w 7 31 d ⟨5, rfl⟩ (by omega), extract_bits w 15 31 b ⟨5, rfl⟩ (by omega),
      extract_bits w 20 31 a ⟨5, rfl⟩ (by omega)]

/-- Decoding the Xor word. -/
theorem decode_word_xor (a b d : Nat) (ha : a < 32) (hb : b < 32) (hd : d < 32) :
    decode ((0 * 32 + a) * 1048576 + b * 32768 + 4 * 4096 + d * 128 + 51) = .ok (.Xor d b a) := by
  set w := (0 * 32 + a) * 1048576 + b * 32768 + 4 * 4096 + d * 128 + 51 with hw
  unfold decode
  rw [extract_low w 127 51 ⟨7, rfl⟩ (by omega)]
  unfold decode_r_type
  rw [extract_bits w 12 7 4 ⟨3, rfl⟩ (by omega), extract_bits w 25 127 0 ⟨7, rfl⟩ (by omega)]
  rw [extract_bits w 7 31 d ⟨5, rfl⟩ (by omega), extract_bits w 15 31 b ⟨5, rfl⟩ (by omega),
      extract_bits w 20 31 a ⟨5, rfl⟩ (by omega)]

/-- Decoding the Srl word. -/
theorem decode_word_srl (a b d : Nat) (ha : a < 32) (hb : b < 32) (hd : d < 32) :
    decode ((0 * 32 + a) * 1048576 + b * 32768 + 5 * 4096 + d * 128 + 51) = .ok (.Srl d b a) := by
  set w := (0 * 32 + a) * 1048576 + b * 32768 + 5 * 4096 + d * 128 + 51 with hw
  unfold decode
  rw [extract_low w 127 51 ⟨7, rfl⟩ (by omega)]
  unfold decode_r_type
  rw [extract_bits w 12 7 5 ⟨3, rfl⟩ (by omega), extract_bits w 25 127 0 ⟨7, rfl⟩ (by omega)]
  rw [extract_bits w 7 31 d ⟨5, rfl⟩ (by omega), extract_bits w 15 31 b ⟨5, rfl⟩ (by omega),
      extract_bits w 20 31 a ⟨5, rfl⟩ (by omega)]

/-- Decoding the Sra word. -/
theorem decode_word_sra (a b d : Nat) (ha : a < 32) (hb : b < 32) (hd : d < 32) :
    decode ((32 * 32 + a) * 1048576 + b * 32768 + 5 * 4096 + d * 128 + 51) = .ok (.Sra d b a) := by
  set w := (32 * 32 + a) * 1048576 + b * 32768 + 5 * 4096 + d * 128 + 51 with hw
  unfold decode
  rw [extract_low w 127 51 ⟨7, rfl⟩ (by omega)]
  unfold decode_r_type
  rw [extract_bits w 12 7 5 ⟨3, rfl⟩ (by omega), extract_bits w 25 127 32 ⟨7, rfl⟩ (by omega)]
  rw [extract_bits w 7 31 d ⟨5, rfl⟩ (by omega), extract_bits w 15 31 b ⟨5, rfl⟩ (by omega),
      extract_bits w 20 31 a ⟨5, rfl⟩ (by omega)]

/-- Decoding the Or word. -/
theorem decode_word_or (a b d : Nat) (ha : a < 32) (hb : b < 32) (hd : d < 32) :
    decode ((0 * 32 + a) * 1048576 + b * 32768 + 6 * 4096 + d * 128 + 51) = .ok (.Or d b a) := by
  set w := (0 * 32 + a) * 1048576 + b * 32768 + 6 * 4096 + d * 128 + 51 with hw
  unfold decode
  rw [extract_low w 127 51 ⟨7, rfl⟩ (by omega)]
  unfold decode_r_type
  rw [extract_bits w 12 7 6 ⟨3, rfl⟩ (by omega), extract_bits w 25 127 0 ⟨7, rfl⟩ (by omega)]
  rw [extract_bits w 7 31 d ⟨5, rfl⟩ (by omega), extract_bits w 15 31 b ⟨5, rfl⟩ (by omega),
      extract_bits w 20 31 a ⟨5, rfl⟩ (by omega)]

/-- Decoding the And word. -/
theorem decode_word_and (a b d : Nat) (ha : a < 32) (hb : b < 32) (hd : d < 32) :
    decode ((0 * 32 + a) * 1048576 + b * 32768 + 7 * 4096 + d * 128 + 51) = .ok (.And d b a) := by
  set w := (0 * 32 + a) * 1048576 + b * 32768 + 7 * 4096 + d * 128 + 51 with hw
  unfold decode
  rw [extract_low w 127 51 ⟨7, rfl⟩ (by omega)]
  unfold decode_r_type
  rw [extract_bits w 12 7 7 ⟨3, rfl⟩ (by omega), extract_bits w 25 127 0 ⟨7, rfl⟩ (by omega)]
  rw [extract_bits w 7 31 d ⟨5, rfl⟩ (by omega), extract_bits w 15 31 b ⟨5, rfl⟩ (by omega),
      extract_bits w 20 31 a ⟨5, rfl⟩ (by omega)]

end Ruscv

namespace Ruscv

/-- Decoding the Addi word. -/
theorem decode_word_addi (a b d : Nat) (ha : a < 4096) (hb : b < 32) (hd : d < 32) :
    decode (a * 1048576 + b * 32768 + 0 * 4096 + d * 128 + 19) = .ok (.Addi d b (i32ext12 a)) := by
  set w := a * 1048576 + b * 32768 + 0 * 4096 + d * 128 + 19 with hw
  unfold decode
  rw [extract_low w 127 19 ⟨7, rfl⟩ (by omega)]
  unfold decode_i_type
  rw [extract_bits w 12 7 0 ⟨3, rfl⟩ (by omega)]
  rw [extract_bits w 7 31 d ⟨5, rfl⟩ (by omega), extract_bits w 15 31 b ⟨5, rfl⟩ (by omega)]
  rw [extract_i_imm w a (b * 32768 + 0 * 4096 + d * 128 + 19) (by omega) ha (by omega)]

/-- Decoding the Slti word. -/
theorem decode_word_slti (a b d : Nat) (ha : a < 4096) (hb : b < 32) (hd : d < 32) :
    decode (a * 1048576 + b * 32768 + 2 * 4096 + d * 128 + 19) = .ok (.Slti d b (i32ext12 a)) := by
  set w := a * 1048576 + b * 32768 + 2 * 4096 + d * 128 + 19 with hw
  unfold decode
  rw [extract_low w 127 19 ⟨7, rfl⟩ (by omega)]
  unfold decode_i_type
  rw [extract_bits w 12 7 2 ⟨3, rfl⟩ (by omega)]
  rw [extract_bits w 7 31 d ⟨5, rfl⟩ (by omega), extract_bits w 15 31 b ⟨5, rfl⟩ (by omega)]
  rw [extract_i_imm w a (b * 32768 + 2 * 4096 + d * 128 + 19) (by omega) ha (by omega)]

/-- Decoding the Sltiu word. -/
theorem decode_word_sltiu (a b d : Nat) (ha : a < 4096) (hb : b < 32) (hd : d < 32) :
    decode (a * 1048576 + b * 32768 + 3 * 4096 + d * 128 + 19) = .ok (.Sltiu d b (i32ext12 a)) := by
  set w := a * 1048576 + b * 32768 + 3 * 4096 + d * 128 + 19 with hw
  unfold decode
  rw [extract_low w 127 19 ⟨7, rfl⟩ (by omega)]
  unfold decode_i_type
  rw [extract_bits w 12 7 3 ⟨3, rfl⟩ (by omega)]
  rw [extract_bits w 7 31 d ⟨5, rfl⟩ (by omega), extract_bits w 15 31 b ⟨5, rfl⟩ (by omega)]
  rw [extract_i_imm w a (b * 32768 + 3 * 4096 + d * 128 + 19) (by omega) ha (by omega)]

/-- Decoding the Xori word. -/
theorem decode_word_xori (a b d : Nat) (ha : a < 4096) (hb : b < 32) (hd : d < 32) :
    decode (a * 1048576 + b * 32768 + 4 * 4096 + d * 128 + 19) = .ok (.Xori d b (i32ext12 a)) := by
  set w := a * 1048576 + b * 32768 + 4 * 4096 + d * 128 + 19 with hw
  unfold decode
  rw [extract_low w 127 19 ⟨7, rfl⟩ (by omega)]
  unfold decode_i_type
  rw [extract_bits w 12 7 4 ⟨3, rfl⟩ (by omega)]
  rw [extract_bits w 7 31 d ⟨5, rfl⟩ (by omega), extract_bits w 15 31 b ⟨5, rfl⟩ (by omega)]
  rw [extract_i_imm w a (b * 32768 + 4 * 4096 + d * 128 + 19) (by omega) ha (by omega)]

/-- Decoding the Ori word. -/
theorem decode_word_ori (a b d : Nat) (ha : a < 4096) (hb : b < 32) (hd : d < 32) :
    decode (a * 1048576 + b * 32768 + 6 * 4096 + d * 128 + 19) = .ok (.Ori d b (i32ext12 a)) := by
  set w := a * 1048576 + b * 32768 + 6 * 4096 + d * 128 + 19 with hw
  unfold decode
  rw [extract_low w 127 19 ⟨7, rfl⟩ (by omega)]
  unfold decode_i_type
  rw [extract_bits w 12 7 6 ⟨3, rfl⟩ (by omega)]
  rw [extract_bits w 7 31 d ⟨5, rfl⟩ (by omega), extract_bits w 15 31 b ⟨5, rfl⟩ (by omega)]
  rw [extract_i_imm w a (b * 32768 + 6 * 4096 + d * 128 + 19) (by omega) ha (by omega)]

/-- Decoding the Andi word. -/
theorem decode_word_andi (a b d : Nat) (ha : a < 4096) (hb : b < 32) (hd : d < 32) :
    decode (a * 1048576 + b * 32768 + 7 * 4096 + d * 128 + 19) = .ok (.Andi d b (i32ext12 a)) := by
  set w := a * 1048576 + b * 32768 + 7 * 4096 + d * 128 + 19 with hw
  unfold decode
  rw [extract_low w 127 19 ⟨7, rfl⟩ (by omega)]
  unfold decode_i_type
  rw [extract_bits w 12 7 7 ⟨3, rfl⟩ (by omega)]
  rw [extract_bits w 7 31 d ⟨5, rfl⟩ (by omega), extract_bits w 15 31 b ⟨5, rfl⟩ (by omega)]
  rw [extract_i_imm w a (b * 32768 + 7 * 4096 + d * 128 + 19) (by omega) ha (by omega)]

/-- Decoding the Slli word. -/
theorem decode_word_slli (a b d : Nat) (ha : a < 32) (hb : b < 32) (hd : d < 32) :
    decode ((0 * 32 + a) * 1048576 + b * 32768 + 1 * 4096 + d * 128 + 19) = .ok (.Slli d b a) := by
  set w := (0 * 32 + a) * 1048576 + b * 32768 + 1 * 4096 + d * 128 + 19 with hw
  unfold decode
  rw [extract_low w 127 19 ⟨7, rfl⟩ (by omega)]
  unfold decode_i_type
  rw [extract_bits w 12 7 1 ⟨3, rfl⟩ (by omega)]
  unfold decode_i_shift
  rw [extract_bits w 12 7 1 ⟨3, rfl⟩ (by omega), extract_bits w 25 127 0 ⟨7, rfl⟩ (by omega)]
  rw [extract_bits w 7 31 d ⟨5, rfl⟩ (by omega), extract_bits w 15 31 b ⟨5, rfl⟩ (by omega),
      extract_bits w 20 31 a ⟨5, rfl⟩ (by omega)]

/-- Decoding the Srli word. -/
theorem decode_word_srli (a b d : Nat) (ha : a < 32) (hb : b < 32) (hd : d < 32) :
    decode ((0 * 32 + a) * 1048576 + b * 32768 + 5 * 4096 + d * 128 + 19) = .ok (.Srli d b a) := by
  set w := (0 * 32 + a) * 1048576 + b * 32768 + 5 * 4096 + d * 128 + 19 with hw
  unfold decode
  rw [extract_low w 127 19 ⟨7, rfl⟩ (by omega)]
  unfold decode_i_type
  rw [extract_bits w 12 7 5 ⟨3, rfl⟩ (by omega)]
  unfold decode_i_shift
  rw [extract_bits w 12 7 5 ⟨3, rfl⟩ (by omega), extract_bits w 25 127 0 ⟨7, rfl⟩ (by omega)]
  rw [extract_bits w 7 31 d ⟨5, rfl⟩ (by omega), extract_bits w 15 31 b ⟨5, rfl⟩ (by omega),
      extract_bits w 20 31 a ⟨5, rfl⟩ (by omega)]

/-- Decoding the Srai word. -/
theorem decode_word_srai (a b d : Nat) (ha : a < 32) (hb : b < 32) (hd : d < 32) :
    decode ((32 * 32 + a) * 1048576 + b * 32768 + 5 * 4096 + d * 128 + 19) = .ok (.Srai d b a) := by
  set w := (32 * 32 + a) * 1048576 + b * 32768 + 5 * 4096 + d * 128 + 19 with hw
  unfold decode
  rw [extract_low w 127 19 ⟨7, rfl⟩ (by omega)]
  unfold decode_i_type
  rw [extract_bits w 12 7 5 ⟨3, rfl⟩ (by omega)]
  unfold decode_i_shift
  rw [extract_bits w 12 7 5 ⟨3, rfl⟩ (by omega), extract_bits w 25 127 32 ⟨7, rfl⟩ (by omega)]
  rw [extract_bits w 7 31 d ⟨5, rfl⟩ (by omega), extract_bits w 15 31 b ⟨5, rfl⟩ (by omega),
      extract_bits w 20 31 a ⟨5, rfl⟩ (by omega)]

/-- Decoding the Lb word. -/
theorem decode_word_lb (a b d : Nat) (ha : a < 4096) (hb : b < 32) (hd : d < 32) :
    decode (a * 1048576 + b * 32768 + 0 * 4096 + d * 128 + 3) = .ok (.Lb d b (i32ext12 a)) := by
  set w := a * 1048576 + b * 32768 + 0 * 4096 + d * 128 + 3 with hw
  unfold decode
  rw [extract_low w 127 3 ⟨7, rfl⟩ (by omega)]
  unfold decode_load_type
  rw [extract_bits w 12 7 0 ⟨3, rfl⟩ (by omega)]
  rw [extract_bits w 7 31 d ⟨5, rfl⟩ (by omega), extract_bits w 15 31 b ⟨5, rfl⟩ (by omega)]
  rw [extract_i_imm w a (b * 32768 + 0 * 4096 + d * 128 + 3) (by omega) ha (by omega)]

/-- Decoding the Lh word. -/
theorem decode_word_lh (a b d : Nat) (ha : a < 4096) (hb : b < 32) (hd : d < 32) :
    decode (a * 1048576 + b * 32768 + 1 * 4096 + d * 128 + 3) = .ok (.Lh d b (i32ext12 a)) := by
  set w := a * 1048576 + b * 32768 + 1 * 4096 + d * 128 + 3 with hw
  unfold decode
  rw [extract_low w 127 3 ⟨7, rfl⟩ (by omega)]
  unfold decode_load_type
  rw [extract_bits w 12 7 1 ⟨3, rfl⟩ (by omega)]
  rw [extract_bits w 7 31 d ⟨5, rfl⟩ (by omega), extract_bits w 15 31 b ⟨5, rfl⟩ (by omega)]
  rw [extract_i_imm w a (b * 32768 + 1 * 4096 + d * 128 + 3) (by omega) ha (by omega)]

/-- Decoding the Lw word. -/
theorem decode_word_lw (a b d : Nat) (ha : a < 4096) (hb : b < 32) (hd : d < 32) :
    decode (a * 1048576 + b * 32768 + 2 * 4096 + d * 128 + 3) = .ok (.Lw d b (i32ext12 a)) := by
  set w := a * 1048576 + b * 32768 + 2 * 4096 + d * 128 + 3 with hw
  unfold decode
  rw [extract_low w 127 3 ⟨7, rfl⟩ (by omega)]
  unfold decode_load_type
  rw [extract_bits w 12 7 2 ⟨3, rfl⟩ (by omega)]
  rw [extract_bits w 7 31 d ⟨5, rfl⟩ (by omega), extract_bits w 15 31 b ⟨5, rfl⟩ (by omega)]
  rw [extract_i_imm w a (b * 32768 + 2 * 4096 + d * 128 + 3) (by omega) ha (by omega)]

/-- Decoding the Lbu word. -/
theorem decode_word_lbu (a b d : Nat) (ha : a < 4096) (hb : b < 32) (hd : d < 32) :
    decode (a * 1048576 + b * 32768 + 4 * 4096 + d * 128 + 3) = .ok (.Lbu d b (i32ext12 a)) := by
  set w := a * 1048576 + b * 32768 + 4 * 4096 + d * 128 + 3 with hw
  unfold decode
  rw [extract_low w 127 3 ⟨7, rfl⟩ (by omega)]
  unfold decode_load_type
  rw [extract_bits w 12 7 4 ⟨3, rfl⟩ (by omega)]
  rw [extract_bits w 7 31 d ⟨5, rfl⟩ (by omega), extract_bits w 15 31 b ⟨5, rfl⟩ (by omega)]
  rw [extract_i_imm w a (b * 32768 + 4 * 4096 + d * 128 + 3) (by omega) ha (by omega)]

/-- Decoding the Lhu word. -/
theorem decode_word_lhu (a b d : Nat) (ha : a < 4096) (hb : b < 32) (hd : d < 32) :
    decode (a * 1048576 + b * 32768 + 5 * 4096 + d * 128 + 3) = .ok (.Lhu d b (i32ext12 a)) := by
  set w := a * 1048576 + b * 32768 + 5 * 4096 + d * 128 + 3 with hw
  unfold decode
  rw [extract_low w 127 3 ⟨7, rfl⟩ (by omega)]
  unfold decode_load_type
  rw [extract_bits w 12 7 5 ⟨3, rfl⟩ (by omega)]
  rw [extract_bits w 7 31 d ⟨5, rfl⟩ (by omega), extract_bits w 15 31 b ⟨5, rfl⟩ (by omega)]
  rw [extract_i_imm w a (b * 32768 + 5 * 4096 + d * 128 + 3) (by omega) ha (by omega)]

/-- Decoding the Jalr word. -/
theorem decode_word_jalr (a b d : Nat) (ha : a < 4096) (hb : b < 32) (hd : d < 32) :
    decode (a * 1048576 + b * 32768 + 0 * 4096 + d * 128 + 103) = .ok (.Jalr d b (i32ext12 a)) := by
  set w := a * 1048576 + b * 32768 + 0 * 4096 + d * 128 + 103 with hw
  unfold decode
  rw [extract_low w 127 103 ⟨7, rfl⟩ (by omega)]
  unfold decode_jalr_type
  rw [extract_bits w 12 7 0 ⟨3, rfl⟩ (by omega)]
  rw [extract_bits w 7 31 d ⟨5, rfl⟩ (by omega), extract_bits w 15 31 b ⟨5, rfl⟩ (by omega)]
  rw [extract_i_imm w a (b * 32768 + 0 * 4096 + d * 128 + 103) (by omega) ha (by omega)]
  rfl

end Ruscv

namespace Ruscv

/-- I-type word layout: the encoder's wrapped immediate shift plus fields
equals the positional sum. -/
theorem i_word_sum (f3 rd rs1 op : Nat) (imm : Int) (h1 : rs1 < 32) (h3 : f3 < 8)
    (hd : rd < 32) (hop : op < 128) :
    wrap32 (toU32 imm <<< 20) ||| (rs1 <<< 15) ||| (f3 <<< 12) ||| (rd <<< 7) ||| op
      = toU32 imm % 4096 * 1048576 + rs1 * 32768 + f3 * 4096 + rd * 128 + op := by
  have hhead : wrap32 (toU32 imm <<< 20) = toU32 imm % 4096 * 1048576 := by
    unfold wrap32
    rw [Nat.shiftLeft_eq]
    omega
  rw [hhead]
  simp only [Nat.shiftLeft_eq]
  rw [or_add_of_mod (toU32 imm % 4096 * 1048576) (rs1 * 2 ^ 15) 1048576
    (by omega) (by omega) ⟨20, by norm_num⟩]
  rw [or_add_of_mod (toU32 imm % 4096 * 1048576 + rs1 * 2 ^ 15) (f3 * 2 ^ 12) (2 ^ 15)
    (by omega) (by omega) ⟨15, rfl⟩]
  rw [or_add_of_mod (toU32 imm % 4096 * 1048576 + rs1 * 2 ^ 15 + f3 * 2 ^ 12) (rd * 2 ^ 7)
    (2 ^ 12) (by omega) (by omega) ⟨12, rfl⟩]
  rw [or_add_of_mod (toU32 imm % 4096 * 1048576 + rs1 * 2 ^ 15 + f3 * 2 ^ 12 + rd * 2 ^ 7)
    op (2 ^ 7) (by omega) (by omega) ⟨7, rfl⟩]

/-- B-type word layout. -/
theorem b_word_sum (i12 i105 rs2 rs1 f3 i41 i11 op : Nat) (h12 : i12 < 2) (h105 : i105 < 64)
    (h2 : rs2 < 32) (h1 : rs1 < 32) (h3 : f3 < 8) (h41 : i41 < 16) (h11 : i11 < 2)
    (hop : op < 128) :
    (i12 <<< 31) ||| (i105 <<< 25) ||| (rs2 <<< 20) ||| (rs1 <<< 15) ||| (f3 <<< 12) |||
      (i41 <<< 8) ||| (i11 <<< 7) ||| op
      = (i12 * 2048 + i105 * 32 + rs2) * 1048576 + rs1 * 32768 + f3 * 4096 +
        (i41 * 2 + i11) * 128 + op := by
  simp only [Nat.shiftLeft_eq]
  rw [or_add_of_mod (i12 * 2 ^ 31) (i105 * 2 ^ 25) (2 ^ 31) (by omega) (by omega) ⟨31, rfl⟩]
  rw [or_add_of_mod (i12 * 2 ^ 31 + i105 * 2 ^ 25) (rs2 * 2 ^ 20) (2 ^ 25)
    (by omega) (by omega) ⟨25, rfl⟩]
  rw [or_add_of_mod (i12 * 2 ^ 31 + i105 * 2 ^ 25 + rs2 * 2 ^ 20) (rs1 * 2 ^ 15) (2 ^ 20)
    (by omega) (by omega) ⟨20, rfl⟩]
  rw [or_add_of_mod (i12 * 2 ^ 31 + i105 * 2 ^ 25 + rs2 * 2 ^ 20 + rs1 * 2 ^ 15) (f3 * 2 ^ 12)
    (2 ^ 15) (by omega) (by omega) ⟨15, rfl⟩]
  rw [or_add_of_mod (i12 * 2 ^ 31 + i105 * 2 ^ 25 + rs2 * 2 ^ 20 + rs1 * 2 ^ 15 + f3 * 2 ^ 12)
    (i41 * 2 ^ 8) (2 ^ 12) (by omega) (by omega) ⟨12, rfl⟩]
  rw [or_add_of_mod (i12 * 2 ^ 31 + i105 * 2 ^ 25 + rs2 * 2 ^ 20 + rs1 * 2 ^ 15 + f3 * 2 ^ 12 +
    i41 * 2 ^ 8) (i11 * 2 ^ 7) (2 ^ 8) (by omega) (by omega) ⟨8, rfl⟩]
  rw [or_add_of_mod (i12 * 2 ^ 31 + i105 * 2 ^ 25 + rs2 * 2 ^ 20 + rs1 * 2 ^ 15 + f3 * 2 ^ 12 +
    i41 * 2 ^ 8 + i11 * 2 ^ 7) op (2 ^ 7) (by omega) (by omega) ⟨7, rfl⟩]
  omega

/-- J-type word layout: the fields are interleaved, so the chain first
reorders the bitwise-or into descending bit positions. -/
theorem j_word_sum (i20 i1912 i11 i101 rd op : Nat) (h20 : i20 < 2) (h1912 : i1912 < 256)
    (h11 : i11 < 2) (h101 : i101 < 1024) (hd : rd < 32) (hop : op < 128) :
    (i20 <<< 31) ||| (i1912 <<< 12) ||| (i11 <<< 20) ||| (i101 <<< 21) ||| (rd <<< 7) ||| op
      = (i20 * 1024 + i101) * 2097152 + i11 * 1048576 + i1912 * 4096 + rd * 128 + op := by
  simp only [Nat.shiftLeft_eq]
  rw [Nat.lor_assoc (i20 * 2 ^ 31) (i1912 * 2 ^ 12) (i11 * 2 ^ 20),
      Nat.lor_comm (i1912 * 2 ^ 12) (i11 * 2 ^ 20),
      ← Nat.lor_assoc (i20 * 2 ^ 31) (i11 * 2 ^ 20) (i1912 * 2 ^ 12)]
  rw [Nat.lor_assoc (i20 * 2 ^ 31 ||| i11 * 2 ^ 20) (i1912 * 2 ^ 12) (i101 * 2 ^ 21),
      Nat.lor_comm (i1912 * 2 ^ 12) (i101 * 2 ^ 21),
      ← Nat.lor_assoc (i20 * 2 ^ 31 ||| i11 * 2 ^ 20) (i101 * 2 ^ 21) (i1912 * 2 ^ 12)]
  rw [Nat.lor_assoc (i20 * 2 ^ 31) (i11 * 2 ^ 20) (i101 * 2 ^ 21),
      Nat.lor_comm (i11 * 2 ^ 20) (i101 * 2 ^ 21),
      ← Nat.lor_assoc (i20 * 2 ^ 31) (i101 * 2 ^ 21) (i11 * 2 ^ 20)]
  rw [or_add_of_mod (i20 * 2 ^ 31) (i101 * 2 ^ 21) (2 ^ 31) (by omega) (by omega) ⟨31, rfl⟩]
  rw [or_add_of_mod (i20 * 2 ^ 31 + i101 * 2 ^ 21) (i11 * 2 ^ 20) (2 ^ 21)
    (by omega) (by omega) ⟨21, rfl⟩]
  rw [or_add_of_mod (i20 * 2 ^ 31 + i101 * 2 ^ 21 + i11 * 2 ^ 20) (i1912 * 2 ^ 12) (2 ^ 20)
    (by omega) (by omega) ⟨20, rfl⟩]
  rw [or_add_of_mod (i20 * 2 ^ 31 + i101 * 2 ^ 21 + i11 * 2 ^ 20 + i1912 * 2 ^ 12) (rd * 2 ^ 7)
    (2 ^ 12) (by omega) (by omega) ⟨12, rfl⟩]
  rw [or_add_of_mod (i20 * 2 ^ 31 + i101 * 2 ^ 21 + i11 * 2 ^ 20 + i1912 * 2 ^ 12 + rd * 2 ^ 7)
    op (2 ^ 7) (by omega) (by omega) ⟨7, rfl⟩]
  omega

/-- Decoding the Sb word. -/
theorem decode_word_sb (a11 a2 b d : Nat) (h11 : a11 < 128) (h2 : a2 < 32) (hb : b < 32)
    (hd : d < 32) :
    decode ((a11 * 32 + a2) * 1048576 + b * 32768 + 0 * 4096 + d * 128 + 35)
      = .ok (.Sb b a2 (s_imm a11 d)) := by
  set w := (a11 * 32 + a2) * 1048576 + b * 32768 + 0 * 4096 + d * 128 + 35 with hw
  unfold decode
  rw [extract_low w 127 35 ⟨7, rfl⟩ (by omega)]
  unfold decode_s_type
  rw [extract_bits w 12 7 0 ⟨3, rfl⟩ (by omega)]
  rw [extract_bits w 15 31 b ⟨5, rfl⟩ (by omega), extract_bits w 20 31 a2 ⟨5, rfl⟩ (by omega)]
  rw [extract_bits w 7 31 d ⟨5, rfl⟩ (by omega)]
  rw [extract_s11 w a11 (a2 * 1048576 + b * 32768 + 0 * 4096 + d * 128 + 35)
    (by omega) h11 (by omega)]
  rfl

/-- Decoding the Sh word. -/
theorem decode_word_sh (a11 a2 b d : Nat) (h11 : a11 < 128) (h2 : a2 < 32) (hb : b < 32)
    (hd : d < 32) :
    decode ((a11 * 32 + a2) * 1048576 + b * 32768 + 1 * 4096 + d * 128 + 35)
      = .ok (.Sh b a2 (s_imm a11 d)) := by
  set w := (a11 * 32 + a2) * 1048576 + b * 32768 + 1 * 4096 + d * 128 + 35 with hw
  unfold decode
  rw [extract_low w 127 35 ⟨7, rfl⟩ (by omega)]
  unfold decode_s_type
  rw [extract_bits w 12 7 1 ⟨3, rfl⟩ (by omega)]
  rw [extract_bits w 15 31 b ⟨5, rfl⟩ (by omega), extract_bits w 20 31 a2 ⟨5, rfl⟩ (by omega)]
  rw [extract_bits w 7 31 d ⟨5, rfl⟩ (by omega)]
  rw [extract_s11 w a11 (a2 * 1048576 + b * 32768 + 1 * 4096 + d * 128 + 35)
    (by omega) h11 (by omega)]
  rfl

/-- Decoding the Sw word. -/
theorem decode_word_sw (a11 a2 b d : Nat) (h11 : a11 < 128) (h2 : a2 < 32) (hb : b < 32)
    (hd : d < 32) :
    decode ((a11 * 32 + a2) * 1048576 + b * 32768 + 2 * 4096 + d * 128 + 35)
      = .ok (.Sw b a2 (s_imm a11 d)) := by
  set w := (a11 * 32 + a2) * 1048576 + b * 32768 + 2 * 4096 + d * 128 + 35 with hw
  unfold decode
  rw [extract_low w 127 35 ⟨7, rfl⟩ (by omega)]
  unfold decode_s_type
  rw [extract_bits w 12 7 2 ⟨3, rfl⟩ (by omega)]
  rw [extract_bits w 15 31 b ⟨5, rfl⟩ (by omega), extract_bits w 20 31 a2 ⟨5, rfl⟩ (by omega)]
  rw [extract_bits w 7 31 d ⟨5, rfl⟩ (by omega)]
  rw [extract_s11 w a11 (a2 * 1048576 + b * 32768 + 2 * 4096 + d * 128 + 35)
    (by omega) h11 (by omega)]
  rfl

end Ruscv

namespace Ruscv

/-- Decoding the Beq word. -/
theorem decode_word_beq (i12 i105 a2 b i41 i11 : Nat) (h12 : i12 < 2) (h105 : i105 < 64)
    (h2 : a2 < 32) (hb : b < 32) (h41 : i41 < 16) (h11 : i11 < 2) :
    decode ((i12 * 2048 + i105 * 32 + a2) * 1048576 + b * 32768 + 0 * 4096 +
        (i41 * 2 + i11) * 128 + 99)
      = .ok (.Beq b a2 (i32ext13 (i12 * 2 ^ 12 + i11 * 2 ^ 11 + i105 * 2 ^ 5 + i41 * 2 ^ 1))) := by
  set w := (i12 * 2048 + i105 * 32 + a2) * 1048576 + b * 32768 + 0 * 4096 +
    (i41 * 2 + i11) * 128 + 99 with hw
  unfold decode
  rw [extract_low w 127 99 ⟨7, rfl⟩ (by omega)]
  unfold decode_b_type
  rw [extract_bits w 12 7 0 ⟨3, rfl⟩ (by omega)]
  rw [extract_bits w 15 31 b ⟨5, rfl⟩ (by omega), extract_bits w 20 31 a2 ⟨5, rfl⟩ (by omega)]
  rw [extract_bits w 31 1 i12 ⟨1, rfl⟩ (by omega), extract_bits w 25 63 i105 ⟨6, rfl⟩ (by omega)]
  rw [extract_bits w 8 15 i41 ⟨4, rfl⟩ (by omega), extract_bits w 7 1 i11 ⟨1, rfl⟩ (by omega)]
  simp only [Nat.shiftLeft_eq]
  rw [or_add_of_mod (i12 * 2 ^ 12) (i11 * 2 ^ 11) (2 ^ 12) (by omega) (by omega) ⟨12, rfl⟩]
  rw [or_add_of_mod (i12 * 2 ^ 12 + i11 * 2 ^ 11) (i105 * 2 ^ 5) (2 ^ 11)
    (by omega) (by omega) ⟨11, rfl⟩]
  rw [or_add_of_mod (i12 * 2 ^ 12 + i11 * 2 ^ 11 + i105 * 2 ^ 5) (i41 * 2 ^ 1) (2 ^ 5)
    (by omega) (by omega) ⟨5, rfl⟩]
  rw [extract_sext13 (i12 * 2 ^ 12 + i11 * 2 ^ 11 + i105 * 2 ^ 5 + i41 * 2 ^ 1) (by omega)]

/-- Decoding the Bne word. -/
theorem decode_word_bne (i12 i105 a2 b i41 i11 : Nat) (h12 : i12 < 2) (h105 : i105 < 64)
    (h2 : a2 < 32) (hb : b < 32) (h41 : i41 < 16) (h11 : i11 < 2) :
    decode ((i12 * 2048 + i105 * 32 + a2) * 1048576 + b * 32768 + 1 * 4096 +
        (i41 * 2 + i11) * 128 + 99)
      = .ok (.Bne b a2 (i32ext13 (i12 * 2 ^ 12 + i11 * 2 ^ 11 + i105 * 2 ^ 5 + i41 * 2 ^ 1))) := by
  set w := (i12 * 2048 + i105 * 32 + a2) * 1048576 + b * 32768 + 1 * 4096 +
    (i41 * 2 + i11) * 128 + 99 with hw
  unfold decode
  rw [extract_low w 127 99 ⟨7, rfl⟩ (by omega)]
  unfold decode_b_type
  rw [extract_bits w 12 7 1 ⟨3, rfl⟩ (by omega)]
  rw [extract_bits w 15 31 b ⟨5, rfl⟩ (by omega), extract_bits w 20 31 a2 ⟨5, rfl⟩ (by omega)]
  rw [extract_bits w 31 1 i12 ⟨1, rfl⟩ (by omega), extract_bits w 25 63 i105 ⟨6, rfl⟩ (by omega)]
  rw [extract_bits w 8 15 i41 ⟨4, rfl⟩ (by omega), extract_bits w 7 1 i11 ⟨1, rfl⟩ (by omega)]
  simp only [Nat.shiftLeft_eq]
  rw [or_add_of_mod (i12 * 2 ^ 12) (i11 * 2 ^ 11) (2 ^ 12) (by omega) (by omega) ⟨12, rfl⟩]
  rw [or_add_of_mod (i12 * 2 ^ 12 + i11 * 2 ^ 11) (i105 * 2 ^ 5) (2 ^ 11)
    (by omega) (by omega) ⟨11, rfl⟩]
  rw [or_add_of_mod (i12 * 2 ^ 12 + i11 * 2 ^ 11 + i105 * 2 ^ 5) (i41 * 2 ^ 1) (2 ^ 5)
    (by omega) (by omega) ⟨5, rfl⟩]
  rw [extract_sext13 (i12 * 2 ^ 12 + i11 * 2 ^ 11 + i105 * 2 ^ 5 + i41 * 2 ^ 1) (by omega)]

/-- Decoding the Blt word. -/
theorem decode_word_blt (i12 i105 a2 b i41 i11 : Nat) (h12 : i12 < 2) (h105 : i105 < 64)
    (h2 : a2 < 32) (hb : b < 32) (h41 : i41 < 16) (h11 : i11 < 2) :
    decode ((i12 * 2048 + i105 * 32 + a2) * 1048576 + b * 32768 + 4 * 4096 +
        (i41 * 2 + i11) * 128 + 99)
      = .ok (.Blt b a2 (i32ext13 (i12 * 2 ^ 12 + i11 * 2 ^ 11 + i105 * 2 ^ 5 + i41 * 2 ^ 1))) := by
  set w := (i12 * 2048 + i105 * 32 + a2) * 1048576 + b * 32768 + 4 * 4096 +
    (i41 * 2 + i11) * 128 + 99 with hw
  unfold decode
  rw [extract_low w 127 99 ⟨7, rfl⟩ (by omega)]
  unfold decode_b_type
  rw [extract_bits w 12 7 4 ⟨3, rfl⟩ (by omega)]
  rw [extract_bits w 15 31 b ⟨5, rfl⟩ (by omega), extract_bits w 20 31 a2 ⟨5, rfl⟩ (by omega)]
  rw [extract_bits w 31 1 i12 ⟨1, rfl⟩ (by omega), extract_bits w 25 63 i105 ⟨6, rfl⟩ (by omega)]
  rw [extract_bits w 8 15 i41 ⟨4, rfl⟩ (by omega), extract_bits w 7 1 i11 ⟨1, rfl⟩ (by omega)]
  simp only [Nat.shiftLeft_eq]
  rw [or_add_of_mod (i12 * 2 ^ 12) (i11 * 2 ^ 11) (2 ^ 12) (by omega) (by omega) ⟨12, rfl⟩]
  rw [or_add_of_mod (i12 * 2 ^ 12 + i11 * 2 ^ 11) (i105 * 2 ^ 5) (2 ^ 11)
    (by omega) (by omega) ⟨11, rfl⟩]
  rw [or_add_of_mod (i12 * 2 ^ 12 + i11 * 2 ^ 11 + i105 * 2 ^ 5) (i41 * 2 ^ 1) (2 ^ 5)
    (by omega) (by omega) ⟨5, rfl⟩]
  rw [extract_sext13 (i12 * 2 ^ 12 + i11 * 2 ^ 11 + i105 * 2 ^ 5 + i41 * 2 ^ 1) (by omega)]

/-- Decoding the Bge word. -/
theorem decode_word_bge (i12 i105 a2 b i41 i11 : Nat) (h12 : i12 < 2) (h105 : i105 < 64)
    (h2 : a2 < 32) (hb : b < 32) (h41 : i41 < 16) (h11 : i11 < 2) :
    decode ((i12 * 2048 + i105 * 32 + a2) * 1048576 + b * 32768 + 5 * 4096 +
        (i41 * 2 + i11) * 128 + 99)
      = .ok (.Bge b a2 (i32ext13 (i12 * 2 ^ 12 + i11 * 2 ^ 11 + i105 * 2 ^ 5 + i41 * 2 ^ 1))) := by
  set w := (i12 * 2048 + i105 * 32 + a2) * 1048576 + b * 32768 + 5 * 4096 +
    (i41 * 2 + i11) * 128 + 99 with hw
  unfold decode
  rw [extract_low w 127 99 ⟨7, rfl⟩ (by omega)]
  unfold decode_b_type
  rw [extract_bits w 12 7 5 ⟨3, rfl⟩ (by omega)]
  rw [extract_bits w 15 31 b ⟨5, rfl⟩ (by omega), extract_bits w 20 31 a2 ⟨5, rfl⟩ (by omega)]
  rw [extract_bits w 31 1 i12 ⟨1, rfl⟩ (by omega), extract_bits w 25 63 i105 ⟨6, rfl⟩ (by omega)]
  rw [extract_bits w 8 15 i41 ⟨4, rfl⟩ (by omega), extract_bits w 7 1 i11 ⟨1, rfl⟩ (by omega)]
  simp only [Nat.shiftLeft_eq]
  rw [or_add_of_mod (i12 * 2 ^ 12) (i11 * 2 ^ 11) (2 ^ 12) (by omega) (by omega) ⟨12, rfl⟩]
  rw [or_add_of_mod (i12 * 2 ^ 12 + i11 * 2 ^ 11) (i105 * 2 ^ 5) (2 ^ 11)
    (by omega) (by omega) ⟨11, rfl⟩]
  rw [or_add_of_mod (i12 * 2 ^ 12 + i11 * 2 ^ 11 + i105 * 2 ^ 5) (i41 * 2 ^ 1) (2 ^ 5)
    (by omega) (by omega) ⟨5, rfl⟩]
  rw [extract_sext13 (i12 * 2 ^ 12 + i11 * 2 ^ 11 + i105 * 2 ^ 5 + i41 * 2 ^ 1) (by omega)]

/-- Decoding the Bltu word. -/
theorem decode_word_bltu (i12 i105 a2 b i41 i11 : Nat) (h12 : i12 < 2) (h105 : i105 < 64)
    (h2 : a2 < 32) (hb : b < 32) (h41 : i41 < 16) (h11 : i11 < 2) :
    decode ((i12 * 2048 + i105 * 32 + a2) * 1048576 + b * 32768 + 6 * 4096 +
        (i41 * 2 + i11) * 128 + 99)
      = .ok (.Bltu b a2 (i32ext13 (i12 * 2 ^ 12 + i11 * 2 ^ 11 + i105 * 2 ^ 5 + i41 * 2 ^ 1))) := by
  set w := (i12 * 2048 + i105 * 32 + a2) * 1048576 + b * 32768 + 6 * 4096 +
    (i41 * 2 + i11) * 128 + 99 with hw
  unfold decode
  rw [extract_low w 127 99 ⟨7, rfl⟩ (by omega)]
  unfold decode_b_type
  rw [extract_bits w 12 7 6 ⟨3, rfl⟩ (by omega)]
  rw [extract_bits w 15 31 b ⟨5, rfl⟩ (by omega), extract_bits w 20 31 a2 ⟨5, rfl⟩ (by omega)]
  rw [extract_bits w 31 1 i12 ⟨1, rfl⟩ (by omega), extract_bits w 25 63 i105 ⟨6, rfl⟩ (by omega)]
  rw [extract_bits w 8 15 i41 ⟨4, rfl⟩ (by omega), extract_bits w 7 1 i11 ⟨1, rfl⟩ (by omega)]
  simp only [Nat.shiftLeft_eq]
  rw [or_add_of_mod (i12 * 2 ^ 12) (i11 * 2 ^ 11) (2 ^ 12) (by omega) (by omega) ⟨12, rfl⟩]
  rw [or_add_of_mod (i12 * 2 ^ 12 + i11 * 2 ^ 11) (i105 * 2 ^ 5) (2 ^ 11)
    (by omega) (by omega) ⟨11, rfl⟩]
  rw [or_add_of_mod (i12 * 2 ^ 12 + i11 * 2 ^ 11 + i105 * 2 ^ 5) (i41 * 2 ^ 1) (2 ^ 5)
    (by omega) (by omega) ⟨5, rfl⟩]
  rw [extract_sext13 (i12 * 2 ^ 12 + i11 * 2 ^ 11 + i105 * 2 ^ 5 + i41 * 2 ^ 1) (by omega)]

/-- Decoding the Bgeu word. -/
theorem decode_word_bgeu (i12 i105 a2 b i41 i11 : Nat) (h12 : i12 < 2) (h105 : i105 < 64)
    (h2 : a2 < 32) (hb : b < 32) (h41 : i41 < 16) (h11 : i11 < 2) :
    decode ((i12 * 2048 + i105 * 32 + a2) * 1048576 + b * 32768 + 7 * 4096 +
        (i41 * 2 + i11) * 128 + 99)
      = .ok (.Bgeu b a2 (i32ext13 (i12 * 2 ^ 12 + i11 * 2 ^ 11 + i105 * 2 ^ 5 + i41 * 2 ^ 1))) := by
  set w := (i12 * 2048 + i105 * 32 + a2) * 1048576 + b * 32768 + 7 * 4096 +
    (i41 * 2 + i11) * 128 + 99 with hw
  unfold decode
  rw [extract_low w 127 99 ⟨7, rfl⟩ (by omega)]
  unfold decode_b_type
  rw [extract_bits w 12 7 7 ⟨3, rfl⟩ (by omega)]
  rw [extract_bits w 15 31 b ⟨5, rfl⟩ (by omega), extract_bits w 20 31 a2 ⟨5, rfl⟩ (by omega)]
  rw [extract_bits w 31 1 i12 ⟨1, rfl⟩ (by omega), extract_bits w 25 63 i105 ⟨6, rfl⟩ (by omega)]
  rw [extract_bits w 8 15 i41 ⟨4, rfl⟩ (by omega), extract_bits w 7 1 i11 ⟨1, rfl⟩ (by omega)]
  simp only [Nat.shiftLeft_eq]
  rw [or_add_of_mod (i12 * 2 ^ 12) (i11 * 2 ^ 11) (2 ^ 12) (by omega) (by omega) ⟨12, rfl⟩]
  rw [or_add_of_mod (i12 * 2 ^ 12 + i11 * 2 ^ 11) (i105 * 2 ^ 5) (2 ^ 11)
    (by omega) (by omega) ⟨11, rfl⟩]
  rw [or_add_of_mod (i12 * 2 ^ 12 + i11 * 2 ^ 11 + i105 * 2 ^ 5) (i41 * 2 ^ 1) (2 ^ 5)
    (by omega) (by omega) ⟨5, rfl⟩]
  rw [extract_sext13 (i12 * 2 ^ 12 + i11 * 2 ^ 11 + i105 * 2 ^ 5 + i41 * 2 ^ 1) (by omega)]

/-- Decoding the Jal word. -/
theorem decode_word_jal (i20 i101 i11 i1912 d : Nat) (h20 : i20 < 2) (h101 : i101 < 1024)
    (h11 : i11 < 2) (h1912 : i1912 < 256) (hd : d < 32) :
    decode ((i20 * 1024 + i101) * 2097152 + i11 * 1048576 + i1912 * 4096 + d * 128 + 111)
      = .ok (.Jal d (i32ext21 (i20 * 2 ^ 20 + i1912 * 2 ^ 12 + i11 * 2 ^ 11 + i101 * 2 ^ 1))) := by
  set w := (i20 * 1024 + i101) * 2097152 + i11 * 1048576 + i1912 * 4096 + d * 128 + 111 with hw
  unfold decode
  rw [extract_low w 127 111 ⟨7, rfl⟩ (by omega)]
  unfold decode_j_type
  rw [extract_bits w 7 31 d ⟨5, rfl⟩ (by omega)]
  rw [extract_bits w 31 1 i20 ⟨1, rfl⟩ (by omega), extract_bits w 21 1023 i101 ⟨10, rfl⟩ (by omega)]
  rw [extract_bits w 20 1 i11 ⟨1, rfl⟩ (by omega), extract_bits w 12 255 i1912 ⟨8, rfl⟩ (by omega)]
  simp only [Nat.shiftLeft_eq]
  rw [or_add_of_mod (i20 * 2 ^ 20) (i1912 * 2 ^ 12) (2 ^ 20) (by omega) (by omega) ⟨20, rfl⟩]
  rw [or_add_of_mod (i20 * 2 ^ 20 + i1912 * 2 ^ 12) (i11 * 2 ^ 11) (2 ^ 12)
    (by omega) (by omega) ⟨12, rfl⟩]
  rw [or_add_of_mod (i20 * 2 ^ 20 + i1912 * 2 ^ 12 + i11 * 2 ^ 11) (i101 * 2 ^ 1) (2 ^ 11)
    (by omega) (by omega) ⟨11, rfl⟩]
  rw [extract_sext21 (i20 * 2 ^ 20 + i1912 * 2 ^ 12 + i11 * 2 ^ 11 + i101 * 2 ^ 1) (by omega)]

end Ruscv

namespace Ruscv

/-- An in-range I-type immediate survives truncation to 12 bits and
sign extension. -/
theorem i_imm_recover (v : Int) (hlo : -2048 ≤ v) (hhi : v < 2048) :
    i32ext12 (toU32 v % 4096) = v := by
  unfold i32ext12 toU32
  split <;> omega

/-- An in-range S-type immediate survives the split into its two fields. -/
theorem s_imm_recover (v : Int) (hlo : -2048 ≤ v) (hhi : v < 2048) :
    s_imm (toU32 v % 4096 / 32) (toU32 v % 4096 % 32) = v := by
  unfold s_imm toU32
  split <;> omega

/-- An even, in-range B-type immediate survives the bit-field scatter and
gather. -/
theorem b_imm_recover (v : Int) (hev : v % 2 = 0) (hlo : -4096 ≤ v) (hhi : v < 4096) :
    i32ext13 (toU32 v / 4096 % 2 * 2 ^ 12 + toU32 v / 2048 % 2 * 2 ^ 11 +
      toU32 v / 32 % 64 * 2 ^ 5 + toU32 v / 2 % 16 * 2 ^ 1) = v := by
  unfold i32ext13 toU32
  split <;> omega

/-- An even, in-range J-type immediate survives the bit-field scatter and
gather. -/
theorem j_imm_recover (v : Int) (hev : v % 2 = 0) (hlo : -1048576 ≤ v) (hhi : v < 1048576) :
    i32ext21 (toU32 v / 1048576 % 2 * 2 ^ 20 + toU32 v / 4096 % 256 * 2 ^ 12 +
      toU32 v / 2048 % 2 * 2 ^ 11 + toU32 v / 2 % 1024 * 2 ^ 1) = v := by
  unfold i32ext21 toU32
  split <;> omega

/-- A shift amount accepted by the encoder has a small bit pattern. -/
theorem toU32_shamt (s : Int) (h0 : 0 ≤ s) (h31 : s ≤ 31) : toU32 s = s.toNat := by
  unfold toU32
  omega


/-- Well-formed R-type operands: three lexer-produced registers. -/
def wfR (ops : List Operand) : Prop :=
  match ops with
  | [Operand.Register rd, Operand.Register rs1, Operand.Register rs2] =>
    rd < 32 ∧ rs1 < 32 ∧ rs2 < 32
  | _ => False

/-- Well-formed I-type operands: registers plus a 12-bit signed immediate. -/
def wfI (ops : List Operand) : Prop :=
  match ops with
  | [Operand.Register rd, Operand.Register rs1, Operand.Immediate imm] =>
    rd < 32 ∧ rs1 < 32 ∧ -2048 ≤ imm ∧ imm < 2048
  | _ => False

/-- Well-formed shift operands: the encoder itself bounds the shift amount. -/
def wfShift (ops : List Operand) : Prop :=
  match ops with
  | [Operand.Register rd, Operand.Register rs1, Operand.Immediate _] =>
    rd < 32 ∧ rs1 < 32
  | _ => False

/-- Well-formed S-type operands: the resolved offset is a 12-bit signed value. -/
def wfS (ops : List Operand) (st : SymbolTable) : Prop :=
  match ops with
  | [Operand.Register rs2, Operand.Memory (MemoryOffset.Immediate v) reg] =>
    rs2 < 32 ∧ reg < 32 ∧ -2048 ≤ v ∧ v < 2048
  | [Operand.Register rs2, Operand.Memory (MemoryOffset.Label l) reg] =>
    rs2 < 32 ∧ reg < 32 ∧
      (match st.get_address l with
       | some a => -2048 ≤ toI32 a ∧ toI32 a < 2048
       | none => False)
  | _ => False

/-- Well-formed B-type operands: even 13-bit signed branch offset. -/
def wfB (ops : List Operand) : Prop :=
  match ops with
  | [Operand.Register rs1, Operand.Register rs2, Operand.Immediate imm] =>
    rs1 < 32 ∧ rs2 < 32 ∧ imm % 2 = 0 ∧ -4096 ≤ imm ∧ imm < 4096
  | _ => False

/-- Well-formed J-type operands: even 21-bit signed jump offset. -/
def wfJ (ops : List Operand) : Prop :=
  match ops with
  | [Operand.Register rd, Operand.Immediate imm] =>
    rd < 32 ∧ imm % 2 = 0 ∧ -1048576 ≤ imm ∧ imm < 1048576
  | _ => False

/-- The statement shapes whose encoding the round trip covers, with every
immediate inside the encodable range of its format (I and S: 12-bit signed;
B: even 13-bit signed; J: even 21-bit signed; register indices 0-31 as the
lexer produces them).  `fence` is excluded: its word `0x0000000F` does not
decode.  This is the well-formedness premise of the amended claim C1. -/
def WellFormedEnc (name : String) (ops : List Operand) (st : SymbolTable) : Prop :=
  match name with
  | "add" => wfR ops
  | "sub" => wfR ops
  | "sll" => wfR ops
  | "slt" => wfR ops
  | "sltu" => wfR ops
  | "xor" => wfR ops
  | "srl" => wfR ops
  | "sra" => wfR ops
  | "or" => wfR ops
  | "and" => wfR ops
  | "addi" => wfI ops
  | "slti" => wfI ops
  | "sltiu" => wfI ops
  | "xori" => wfI ops
  | "ori" => wfI ops
  | "andi" => wfI ops
  | "slli" => wfShift ops
  | "srli" => wfShift ops
  | "srai" => wfShift ops
  | "lb" => wfI ops
  | "lh" => wfI ops
  | "lw" => wfI ops
  | "lbu" => wfI ops
  | "lhu" => wfI ops
  | "jalr" => wfI ops
  | "sb" => wfS ops st
  | "sh" => wfS ops st
  | "sw" => wfS ops st
  | "beq" => wfB ops
  | "bne" => wfB ops
  | "blt" => wfB ops
  | "bge" => wfB ops
  | "bltu" => wfB ops
  | "bgeu" => wfB ops
  | "jal" => wfJ ops
  | "ecall" => ops = []
  | "ebreak" => ops = []
  | _ => False

/-- Expected R-type instruction from consumed fields. -/
def expR (mk : Nat → Nat → Nat → Instruction) (ops : List Operand) : Option Instruction :=
  match ops with
  | [Operand.Register rd, Operand.Register rs1, Operand.Register rs2] => some (mk rd rs1 rs2)
  | _ => none

/-- Expected instruction from two registers and an immediate (I and B shapes). -/
def expI (mk : Nat → Nat → Int → Instruction) (ops : List Operand) : Option Instruction :=
  match ops with
  | [Operand.Register rd, Operand.Register rs1, Operand.Immediate imm] => some (mk rd rs1 imm)
  | _ => none

/-- Expected shift instruction: the consumed shift amount as a natural number. -/
def expShift (mk : Nat → Nat → Nat → Instruction) (ops : List Operand) : Option Instruction :=
  match ops with
  | [Operand.Register rd, Operand.Register rs1, Operand.Immediate s] =>
    some (mk rd rs1 s.toNat)
  | _ => none

/-- Expected S-type instruction, with the label offset resolved the way the
encoder resolves it (`address as i32`). -/
def expS (mk : Nat → Nat → Int → Instruction) (ops : List Operand) (st : SymbolTable) :
    Option Instruction :=
  match ops with
  | [Operand.Register rs2, Operand.Memory (MemoryOffset.Immediate v) reg] =>
    some (mk reg rs2 v)
  | [Operand.Register rs2, Operand.Memory (MemoryOffset.Label l) reg] =>
    (match st.get_address l with
     | some a => some (mk reg rs2 (toI32 a))
     | none => none)
  | _ => none

/-- Expected J-type instruction. -/
def expJ (mk : Nat → Int → Instruction) (ops : List Operand) : Option Instruction :=
  match ops with
  | [Operand.Register rd, Operand.Immediate imm] => some (mk rd imm)
  | _ => none

/-- The decoded instruction whose fields are exactly the ones the encoder
consumed for the statement (registers, resolved immediate, shift amount).
This is the specification side of the round-trip claim. -/
def expectedInstruction (name : String) (ops : List Operand) (st : SymbolTable) :
    Option Instruction :=
  match name with
  | "add" => expR .Add ops
  | "sub" => expR .Sub ops
  | "sll" => expR .Sll ops
  | "slt" => expR .Slt ops
  | "sltu" => expR .Sltu ops
  | "xor" => expR .Xor ops
  | "srl" => expR .Srl ops
  | "sra" => expR .Sra ops
  | "or" => expR .Or ops
  | "and" => expR .And ops
  | "addi" => expI .Addi ops
  | "slti" => expI .Slti ops
  | "sltiu" => expI .Sltiu ops
  | "xori" => expI .Xori ops
  | "ori" => expI .Ori ops
  | "andi" => expI .Andi ops
  | "slli" => expShift .Slli ops
  | "srli" => expShift .Srli ops
  | "srai" => expShift .Srai ops
  | "lb" => expI .Lb ops
  | "lh" => expI .Lh ops
  | "lw" => expI .Lw ops
  | "lbu" => expI .Lbu ops
  | "lhu" => expI .Lhu ops
  | "jalr" => expI .Jalr ops
  | "sb" => expS .Sb ops st
  | "sh" => expS .Sh ops st
  | "sw" => expS .Sw ops st
  | "beq" => expI .Beq ops
  | "bne" => expI .Bne ops
  | "blt" => expI .Blt ops
  | "bge" => expI .Bge ops
  | "bltu" => expI .Bltu ops
  | "bgeu" => expI .Bgeu ops
  | "jal" => expJ .Jal ops
  | "ecall" => if ops = [] then some .Ecall else none
  | "ebreak" => if ops = [] then some .Ebreak else none
  | _ => none

end Ruscv

namespace Ruscv

set_option maxHeartbeats 4000000 in
/-- C1 (amended): for every statement the encoder accepts, with operands in
the well-formed set `WellFormedEnc` (registers 0-31 as produced by the lexer,
immediates within the encodable range of the instruction format, `fence`
excluded), decoding the emitted 32-bit word yields exactly the instruction
whose fields the encoder consumed. -/
theorem encode_decode_round_trip (name : String) (ops : List Operand) (st : SymbolTable)
    (current_pc : Nat) (w : Nat)
    (henc : encode_instruction name ops st current_pc = .ok w)
    (hwf : WellFormedEnc name ops st) :
    ∃ inst, expectedInstruction name ops st = some inst ∧ decode w = .ok inst := by
  rw [WellFormedEnc.eq_def] at hwf
  split at hwf
  all_goals try exact hwf.elim
  case _ =>
    rw [wfR.eq_def] at hwf
    split at hwf
    next rd rs1 rs2 =>
      obtain ⟨hrd, hrs1, hrs2⟩ := hwf
      simp only [encode_instruction, encode_r_type, Except.ok.injEq] at henc
      subst henc
      refine ⟨_, rfl, ?_⟩
      rw [r_word_sum 0 rs2 rs1 0 rd 51 (by norm_num) hrs2 hrs1 (by norm_num) hrd
        (by norm_num)]
      exact decode_word_add rs2 rs1 rd hrs2 hrs1 hrd
    all_goals exact hwf.elim
  case _ =>
    rw [wfR.eq_def] at hwf
    split at hwf
    next rd rs1 rs2 =>
      obtain ⟨hrd, hrs1, hrs2⟩ := hwf
      simp only [encode_instruction, encode_r_type, Except.ok.injEq] at henc
      subst henc
      refine ⟨_, rfl, ?_⟩
      rw [r_word_sum 32 rs2 rs1 0 rd 51 (by norm_num) hrs2 hrs1 (by norm_num) hrd
        (by norm_num)]
      exact decode_word_sub rs2 rs1 rd hrs2 hrs1 hrd
    all_goals exact hwf.elim
  case _ =>
    rw [wfR.eq_def] at hwf
    split at hwf
    next rd rs1 rs2 =>
      obtain ⟨hrd, hrs1, hrs2⟩ := hwf
      simp only [encode_instruction, encode_r_type, Except.ok.injEq] at henc
      subst henc
      refine ⟨_, rfl, ?_⟩
      rw [r_word_sum 0 rs2 rs1 1 rd 51 (by norm_num) hrs2 hrs1 (by norm_num) hrd
        (by norm_num)]
      exact decode_word_sll rs2 rs1 rd hrs2 hrs1 hrd
    all_goals exact hwf.elim
  case _ =>
    rw [wfR.eq_def] at hwf
    split at hwf
    next rd rs1 rs2 =>
      obtain ⟨hrd, hrs1, hrs2⟩ := hwf
      simp only [encode_instruction, encode_r_type, Except.ok.injEq] at henc
      subst henc
      refine ⟨_, rfl, ?_⟩
      rw [r_word_sum 0 rs2 rs1 2 rd 51 (by norm_num) hrs2 hrs1 (by norm_num) hrd
        (by norm_num)]
      exact decode_word_slt rs2 rs1 rd hrs2 hrs1 hrd
    all_goals exact hwf.elim
  case _ =>
    rw [wfR.eq_def] at hwf
    split at hwf
    next rd rs1 rs2 =>
      obtain ⟨hrd, hrs1, hrs2⟩ := hwf
      simp only [encode_instruction, encode_r_type, Except.ok.injEq] at henc
      subst henc
      refine ⟨_, rfl, ?_⟩
      rw [r_word_sum 0 rs2 rs1 3 rd 51 (by norm_num) hrs2 hrs1 (by norm_num) hrd
        (by norm_num)]
      exact decode_word_sltu rs2 rs1 rd hrs2 hrs1 hrd
    all_goals exact hwf.elim
  case _ =>
    rw [wfR.eq_def] at hwf
    split at hwf
    next rd rs1 rs2 =>
      obtain ⟨hrd, hrs1, hrs2⟩ := hwf
      simp only [encode_instruction, encode_r_type, Except.ok.injEq] at henc
      subst henc
      refine ⟨_, rfl, ?_⟩
      rw [r_word_sum 0 rs2 rs1 4 rd 51 (by norm_num) hrs2 hrs1 (by norm_num) hrd
        (by norm_num)]
      exact decode_word_xor rs2 rs1 rd hrs2 hrs1 hrd
    all_goals exact hwf.elim
  case _ =>
    rw [wfR.eq_def] at hwf
    split at hwf
    next rd rs1 rs2 =>
      obtain ⟨hrd, hrs1, hrs2⟩ := hwf
      simp only [encode_instruction, encode_r_type, Except.ok.injEq] at henc
      subst henc
      refine ⟨_, rfl, ?_⟩
      rw [r_word_sum 0 rs2 rs1 5 rd 51 (by norm_num) hrs2 hrs1 (by norm_num) hrd
        (by norm_num)]
      exact decode_word_srl rs2 rs1 rd hrs2 hrs1 hrd
    all_goals exact hwf.elim
  case _ =>
    rw [wfR.eq_def] at hwf
    split at hwf
    next rd rs1 rs2 =>
      obtain ⟨hrd, hrs1, hrs2⟩ := hwf
      simp only [encode_instruction, encode_r_type, Except.ok.injEq] at henc
      subst henc
      refine ⟨_, rfl, ?_⟩
      rw [r_word_sum 32 rs2 rs1 5 rd 51 (by norm_num) hrs2 hrs1 (by norm_num) hrd
        (by norm_num)]
      exact decode_word_sra rs2 rs1 rd hrs2 hrs1 hrd
    all_goals exact hwf.elim
  case _ =>
    rw [wfR.eq_def] at hwf
    split at hwf
    next rd rs1 rs2 =>
      obtain ⟨hrd, hrs1, hrs2⟩ := hwf
      simp only [encode_instruction, encode_r_type, Except.ok.injEq] at henc
      subst henc
      refine ⟨_, rfl, ?_⟩
      rw [r_word_sum 0 rs2 rs1 6 rd 51 (by norm_num) hrs2 hrs1 (by norm_num) hrd
        (by norm_num)]
      exact decode_word_or rs2 rs1 rd hrs2 hrs1 hrd
    all_goals exact hwf.elim
  case _ =>
    rw [wfR.eq_def] at hwf
    split at hwf
    next rd rs1 rs2 =>
      obtain ⟨hrd, hrs1, hrs2⟩ := hwf
      simp only [encode_instruction, encode_r_type, Except.ok.injEq] at henc
      subst henc
      refine ⟨_, rfl, ?_⟩
      rw [r_word_sum 0 rs2 rs1 7 rd 51 (by norm_num) hrs2 hrs1 (by norm_num) hrd
        (by norm_num)]
      exact decode_word_and rs2 rs1 rd hrs2 hrs1 hrd
    all_goals exact hwf.elim
  case _ =>
    rw [wfI.eq_def] at hwf
    split at hwf
    next rd rs1 imm =>
      obtain ⟨hrd, hrs1, hlo, hhi⟩ := hwf
      simp only [encode_instruction, encode_i_type, Except.ok.injEq] at henc
      subst henc
      refine ⟨_, rfl, ?_⟩
      rw [i_word_sum 0 rd rs1 19 imm hrs1 (by norm_num) hrd (by norm_num)]
      rw [decode_word_addi (toU32 imm % 4096) rs1 rd (by omega) hrs1 hrd]
      rw [i_imm_recover imm hlo hhi]
    all_goals exact hwf.elim
  case _ =>
    rw [wfI.eq_def] at hwf
    split at hwf
    next rd rs1 imm =>
      obtain ⟨hrd, hrs1, hlo, hhi⟩ := hwf
      simp only [encode_instruction, encode_i_type, Except.ok.injEq] at henc
      subst henc
      refine ⟨_, rfl, ?_⟩
      rw [i_word_sum 2 rd rs1 19 imm hrs1 (by norm_num) hrd (by norm_num)]
      rw [decode_word_slti (toU32 imm % 4096) rs1 rd (by omega) hrs1 hrd]
      rw [i_imm_recover imm hlo hhi]
    all_goals exact hwf.elim
  case _ =>
    rw [wfI.eq_def] at hwf
    split at hwf
    next rd rs1 imm =>
      obtain ⟨hrd, hrs1, hlo, hhi⟩ := hwf
      simp only [encode_instruction, encode_i_type, Except.ok.injEq] at henc
      subst henc
      refine ⟨_, rfl, ?_⟩
      rw [i_word_sum 3 rd rs1 19 imm hrs1 (by norm_num) hrd (by norm_num)]
      rw [decode_word_sltiu (toU32 imm % 4096) rs1 rd (by omega) hrs1 hrd]
      rw [i_imm_recover imm hlo hhi]
    all_goals exact hwf.elim
  case _ =>
    rw [wfI.eq_def] at hwf
    split at hwf
    next rd rs1 imm =>
      obtain ⟨hrd, hrs1, hlo, hhi⟩ := hwf
      simp only [encode_instruction, encode_i_type, Except.ok.injEq] at henc
      subst henc
      refine ⟨_, rfl, ?_⟩
      rw [i_word_sum 4 rd rs1 19 imm hrs1 (by norm_num) hrd (by norm_num)]
      rw [decode_word_xori (toU32 imm % 4096) rs1 rd (by omega) hrs1 hrd]
      rw [i_imm_recover imm hlo hhi]
    all_goals exact hwf.elim
  case _ =>
    rw [wfI.eq_def] at hwf
    split at hwf
    next rd rs1 imm =>
      obtain ⟨hrd, hrs1, hlo, hhi⟩ := hwf
      simp only [encode_instruction, encode_i_type, Except.ok.injEq] at henc
      subst henc
      refine ⟨_, rfl, ?_⟩
      rw [i_word_sum 6 rd rs1 19 imm hrs1 (by norm_num) hrd (by norm_num)]
      rw [decode_word_ori (toU32 imm % 4096) rs1 rd (by omega) hrs1 hrd]
      rw [i_imm_recover imm hlo hhi]
    all_goals exact hwf.elim
  case _ =>
    rw [wfI.eq_def] at hwf
    split at hwf
    next rd rs1 imm =>
      obtain ⟨hrd, hrs1, hlo, hhi⟩ := hwf
      simp only [encode_instruction, encode_i_type, Except.ok.injEq] at henc
      subst henc
      refine ⟨_, rfl, ?_⟩
      rw [i_word_sum 7 rd rs1 19 imm hrs1 (by norm_num) hrd (by norm_num)]
      rw [decode_word_andi (toU32 imm % 4096) rs1 rd (by omega) hrs1 hrd]
      rw [i_imm_recover imm hlo hhi]
    all_goals exact hwf.elim
  case _ =>
    rw [wfShift.eq_def] at hwf
    split at hwf
    next rd rs1 s =>
      obtain ⟨hrd, hrs1⟩ := hwf
      simp only [encode_instruction, encode_i_shift] at henc
      split at henc
      next => simp at henc
      next hcond =>
        rw [not_or] at hcond
        obtain ⟨h0, h31⟩ := hcond
        simp only [Except.ok.injEq] at henc
        subst henc
        refine ⟨_, rfl, ?_⟩
        rw [toU32_shamt s (by omega) (by omega)]
        rw [r_word_sum 0 s.toNat rs1 1 rd 19 (by norm_num) (by omega) hrs1 (by norm_num)
          hrd (by norm_num)]
        exact decode_word_slli s.toNat rs1 rd (by omega) hrs1 hrd
    all_goals exact hwf.elim
  case _ =>
    rw [wfShift.eq_def] at hwf
    split at hwf
    next rd rs1 s =>
      obtain ⟨hrd, hrs1⟩ := hwf
      simp only [encode_instruction, encode_i_shift] at henc
      split at henc
      next => simp at henc
      next hcond =>
        rw [not_or] at hcond
        obtain ⟨h0, h31⟩ := hcond
        simp only [Except.ok.injEq] at henc
        subst henc
        refine ⟨_, rfl, ?_⟩
        rw [toU32_shamt s (by omega) (by omega)]
        rw [r_word_sum 0 s.toNat rs1 5 rd 19 (by norm_num) (by omega) hrs1 (by norm_num)
          hrd (by norm_num)]
        exact decode_word_srli s.toNat rs1 rd (by omega) hrs1 hrd
    all_goals exact hwf.elim
  case _ =>
    rw [wfShift.eq_def] at hwf
    split at hwf
    next rd rs1 s =>
      obtain ⟨hrd, hrs1⟩ := hwf
      simp only [encode_instruction, encode_i_shift] at henc
      split at henc
      next => simp at henc
      next hcond =>
        rw [not_or] at hcond
        obtain ⟨h0, h31⟩ := hcond
        simp only [Except.ok.injEq] at henc
        subst henc
        refine ⟨_, rfl, ?_⟩
        rw [toU32_shamt s (by omega) (by omega)]
        rw [r_word_sum 32 s.toNat rs1 5 rd 19 (by norm_num) (by omega) hrs1 (by norm_num)
          hrd (by norm_num)]
        exact decode_word_srai s.toNat rs1 rd (by omega) hrs1 hrd
    all_goals exact hwf.elim
  case _ =>
    rw [wfI.eq_def] at hwf
    split at hwf
    next rd rs1 imm =>
      obtain ⟨hrd, hrs1, hlo, hhi⟩ := hwf
      simp only [encode_instruction, encode_i_type, Except.ok.injEq] at henc
      subst henc
      refine ⟨_, rfl, ?_⟩
      rw [i_word_sum 0 rd rs1 3 imm hrs1 (by norm_num) hrd (by norm_num)]
      rw [decode_word_lb (toU32 imm % 4096) rs1 rd (by omega) hrs1 hrd]
      rw [i_imm_recover imm hlo hhi]
    all_goals exact hwf.elim
  case _ =>
    rw [wfI.eq_def] at hwf
    split at hwf
    next rd rs1 imm =>
      obtain ⟨hrd, hrs1, hlo, hhi⟩ := hwf
      simp only [encode_instruction, encode_i_type, Except.ok.injEq] at henc
      subst henc
      refine ⟨_, rfl, ?_⟩
      rw [i_word_sum 1 rd rs1 3 imm hrs1 (by norm_num) hrd (by norm_num)]
      rw [decode_word_lh (toU32 imm % 4096) rs1 rd (by omega) hrs1 hrd]
      rw [i_imm_recover imm hlo hhi]
    all_goals exact hwf.elim
  case _ =>
    rw [wfI.eq_def] at hwf
    split at hwf
    next rd rs1 imm =>
      obtain ⟨hrd, hrs1, hlo, hhi⟩ := hwf
      simp only [encode_instruction, encode_i_type, Except.ok.injEq] at henc
      subst henc
      refine ⟨_, rfl, ?_⟩
      rw [i_word_sum 2 rd rs1 3 imm hrs1 (by norm_num) hrd (by norm_num)]
      rw [decode_word_lw (toU32 imm % 4096) rs1 rd (by omega) hrs1 hrd]
      rw [i_imm_recover imm hlo hhi]
    all_goals exact hwf.elim
  case _ =>
    rw [wfI.eq_def] at hwf
    split at hwf
    next rd rs1 imm =>
      obtain ⟨hrd, hrs1, hlo, hhi⟩ := hwf
      simp only [encode_instruction, encode_i_type, Except.ok.injEq] at henc
      subst henc
      refine ⟨_, rfl, ?_⟩
      rw [i_word_sum 4 rd rs1 3 imm hrs1 (by norm_num) hrd (by norm_num)]
      rw [decode_word_lbu (toU32 imm % 4096) rs1 rd (by omega) hrs1 hrd]
      rw [i_imm_recover imm hlo hhi]
    all_goals exact hwf.elim
  case _ =>
    rw [wfI.eq_def] at hwf
    split at hwf
    next rd rs1 imm =>
      obtain ⟨hrd, hrs1, hlo, hhi⟩ := hwf
      simp only [encode_instruction, encode_i_type, Except.ok.injEq] at henc
      subst henc
      refine ⟨_, rfl, ?_⟩
      rw [i_word_sum 5 rd rs1 3 imm hrs1 (by norm_num) hrd (by norm_num)]
      rw [decode_word_lhu (toU32 imm % 4096) rs1 rd (by omega) hrs1 hrd]
      rw [i_imm_recover imm hlo hhi]
    all_goals exact hwf.elim
  case _ =>
    rw [wfI.eq_def] at hwf
    split at hwf
    next rd rs1 imm =>
      obtain ⟨hrd, hrs1, hlo, hhi⟩ := hwf
      simp only [encode_instruction, encode_i_type, Except.ok.injEq] at henc
      subst henc
      refine ⟨_, rfl, ?_⟩
      rw [i_word_sum 0 rd rs1 103 imm hrs1 (by norm_num) hrd (by norm_num)]
      rw [decode_word_jalr (toU32 imm % 4096) rs1 rd (by omega) hrs1 hrd]
      rw [i_imm_recover imm hlo hhi]
    all_goals exact hwf.elim
  case _ =>
    rw [wfS.eq_def] at hwf
    split at hwf
    next rs2 v reg =>
      obtain ⟨h2, hr, hlo, hhi⟩ := hwf
      simp only [encode_instruction, encode_s_type, Except.ok.injEq] at henc
      subst henc
      refine ⟨_, rfl, ?_⟩
      rw [extract_low (toU32 v) 4095 (toU32 v % 4096) ⟨12, rfl⟩ rfl]
      rw [extract_bits (toU32 v % 4096) 5 127 (toU32 v % 4096 / 32) ⟨7, rfl⟩ (by omega)]
      rw [extract_low (toU32 v % 4096) 31 (toU32 v % 4096 % 32) ⟨5, rfl⟩ rfl]
      rw [r_word_sum (toU32 v % 4096 / 32) rs2 reg 0 (toU32 v % 4096 % 32) 35 (by omega) h2
        hr (by norm_num) (by omega) (by norm_num)]
      rw [decode_word_sb (toU32 v % 4096 / 32) rs2 reg (toU32 v % 4096 % 32) (by omega) h2 hr (by omega)]
      rw [s_imm_recover v hlo hhi]
    next rs2 l reg =>
      obtain ⟨h2, hr, hrest⟩ := hwf
      rcases hsa : SymbolTable.get_address st l with _ | a
      · rw [hsa] at hrest
        exact hrest.elim
      rw [hsa] at hrest
      obtain ⟨hlo, hhi⟩ := hrest
      simp only [encode_instruction, encode_s_type, hsa, Except.ok.injEq] at henc
      subst henc
      refine ⟨.Sb reg rs2 (toI32 a), by simp only [expectedInstruction, expS, hsa], ?_⟩
      rw [extract_low (toU32 (toI32 a)) 4095 (toU32 (toI32 a) % 4096) ⟨12, rfl⟩ rfl]
      rw [extract_bits (toU32 (toI32 a) % 4096) 5 127 (toU32 (toI32 a) % 4096 / 32) ⟨7, rfl⟩
        (by omega)]
      rw [extract_low (toU32 (toI32 a) % 4096) 31 (toU32 (toI32 a) % 4096 % 32) ⟨5, rfl⟩ rfl]
      rw [r_word_sum (toU32 (toI32 a) % 4096 / 32) rs2 reg 0 (toU32 (toI32 a) % 4096 % 32)
        35 (by omega) h2 hr (by norm_num) (by omega) (by norm_num)]
      rw [decode_word_sb (toU32 (toI32 a) % 4096 / 32) rs2 reg (toU32 (toI32 a) % 4096 % 32) (by omega)
        h2 hr (by omega)]
      rw [s_imm_recover (toI32 a) hlo hhi]
    all_goals exact hwf.elim
  case _ =>
    rw [wfS.eq_def] at hwf
    split at hwf
    next rs2 v reg =>
      obtain ⟨h2, hr, hlo, hhi⟩ := hwf
      simp only [encode_instruction, encode_s_type, Except.ok.injEq] at henc
      subst henc
      refine ⟨_, rfl, ?_⟩
      rw [extract_low (toU32 v) 4095 (toU32 v % 4096) ⟨12, rfl⟩ rfl]
      rw [extract_bits (toU32 v % 4096) 5 127 (toU32 v % 4096 / 32) ⟨7, rfl⟩ (by omega)]
      rw [extract_low (toU32 v % 4096) 31 (toU32 v % 4096 % 32) ⟨5, rfl⟩ rfl]
      rw [r_word_sum (toU32 v % 4096 / 32) rs2 reg 1 (toU32 v % 4096 % 32) 35 (by omega) h2
        hr (by norm_num) (by omega) (by norm_num)]
      rw [decode_word_sh (toU32 v % 4096 / 32) rs2 reg (toU32 v % 4096 % 32) (by omega) h2 hr (by omega)]
      rw [s_imm_recover v hlo hhi]
    next rs2 l reg =>
      obtain ⟨h2, hr, hrest⟩ := hwf
      rcases hsa : SymbolTable.get_address st l with _ | a
      · rw [hsa] at hrest
        exact hrest.elim
      rw [hsa] at hrest
      obtain ⟨hlo, hhi⟩ := hrest
      simp only [encode_instruction, encode_s_type, hsa, Except.ok.injEq] at henc
      subst henc
      refine ⟨.Sh reg rs2 (toI32 a), by simp only [expectedInstruction, expS, hsa], ?_⟩
      rw [extract_low (toU32 (toI32 a)) 4095 (toU32 (toI32 a) % 4096) ⟨12, rfl⟩ rfl]
      rw [extract_bits (toU32 (toI32 a) % 4096) 5 127 (toU32 (toI32 a) % 4096 / 32) ⟨7, rfl⟩
        (by omega)]
      rw [extract_low (toU32 (toI32 a) % 4096) 31 (toU32 (toI32 a) % 4096 % 32) ⟨5, rfl⟩ rfl]
      rw [r_word_sum (toU32 (toI32 a) % 4096 / 32) rs2 reg 1 (toU32 (toI32 a) % 4096 % 32)
        35 (by omega) h2 hr (by norm_num) (by omega) (by norm_num)]
      rw [decode_word_sh (toU32 (toI32 a) % 4096 / 32) rs2 reg (toU32 (toI32 a) % 4096 % 32) (by omega)
        h2 hr (by omega)]
      rw [s_imm_recover (toI32 a) hlo hhi]
    all_goals exact hwf.elim
  case _ =>
    rw [wfS.eq_def] at hwf
    split at hwf
    next rs2 v reg =>
      obtain ⟨h2, hr, hlo, hhi⟩ := hwf
      simp only [encode_instruction, encode_s_type, Except.ok.injEq] at henc
      subst henc
      refine ⟨_, rfl, ?_⟩
      rw [extract_low (toU32 v) 4095 (toU32 v % 4096) ⟨12, rfl⟩ rfl]
      rw [extract_bits (toU32 v % 4096) 5 127 (toU32 v % 4096 / 32) ⟨7, rfl⟩ (by omega)]
      rw [extract_low (toU32 v % 4096) 31 (toU32 v % 4096 % 32) ⟨5, rfl⟩ rfl]
      rw [r_word_sum (toU32 v % 4096 / 32) rs2 reg 2 (toU32 v % 4096 % 32) 35 (by omega) h2
        hr (by norm_num) (by omega) (by norm_num)]
      rw [decode_word_sw (toU32 v % 4096 / 32) rs2 reg (toU32 v % 4096 % 32) (by omega) h2 hr (by omega)]
      rw [s_imm_recover v hlo hhi]
    next rs2 l reg =>
      obtain ⟨h2, hr, hrest⟩ := hwf
      rcases hsa : SymbolTable.get_address st l with _ | a
      · rw [hsa] at hrest
        exact hrest.elim
      rw [hsa] at hrest
      obtain ⟨hlo, hhi⟩ := hrest
      simp only [encode_instruction, encode_s_type, hsa, Except.ok.injEq] at henc
      subst henc
      refine ⟨.Sw reg rs2 (toI32 a), by simp only [expectedInstruction, expS, hsa], ?_⟩
      rw [extract_low (toU32 (toI32 a)) 4095 (toU32 (toI32 a) % 4096) ⟨12, rfl⟩ rfl]
      rw [extract_bits (toU32 (toI32 a) % 4096) 5 127 (toU32 (toI32 a) % 4096 / 32) ⟨7, rfl⟩
        (by omega)]
      rw [extract_low (toU32 (toI32 a) % 4096) 31 (toU32 (toI32 a) % 4096 % 32) ⟨5, rfl⟩ rfl]
      rw [r_word_sum (toU32 (toI32 a) % 4096 / 32) rs2 reg 2 (toU32 (toI32 a) % 4096 % 32)
        35 (by omega) h2 hr (by norm_num) (by omega) (by norm_num)]
      rw [decode_word_sw (toU32 (toI32 a) % 4096 / 32) rs2 reg (toU32 (toI32 a) % 4096 % 32) (by omega)
        h2 hr (by omega)]
      rw [s_imm_recover (toI32 a) hlo hhi]
    all_goals exact hwf.elim
  case _ =>
    rw [wfB.eq_def] at hwf
    split at hwf
    next rs1 rs2 imm =>
      obtain ⟨h1, h2, hev, hlo, hhi⟩ := hwf
      simp only [encode_instruction, encode_b_type, Except.ok.injEq] at henc
      subst henc
      refine ⟨_, rfl, ?_⟩
      rw [extract_bits (toU32 imm) 12 1 (toU32 imm / 4096 % 2) ⟨1, rfl⟩ (by omega)]
      rw [extract_bits (toU32 imm) 5 63 (toU32 imm / 32 % 64) ⟨6, rfl⟩ (by omega)]
      rw [extract_bits (toU32 imm) 1 15 (toU32 imm / 2 % 16) ⟨4, rfl⟩ (by omega)]
      rw [extract_bits (toU32 imm) 11 1 (toU32 imm / 2048 % 2) ⟨1, rfl⟩ (by omega)]
      rw [b_word_sum (toU32 imm / 4096 % 2) (toU32 imm / 32 % 64) rs2 rs1 0
        (toU32 imm / 2 % 16) (toU32 imm / 2048 % 2) 99 (by omega) (by omega) h2 h1
        (by norm_num) (by omega) (by omega) (by norm_num)]
      rw [decode_word_beq (toU32 imm / 4096 % 2) (toU32 imm / 32 % 64) rs2 rs1 (toU32 imm / 2 % 16)
        (toU32 imm / 2048 % 2) (by omega) (by omega) h2 h1 (by omega) (by omega)]
      rw [b_imm_recover imm hev hlo hhi]
    all_goals exact hwf.elim
  case _ =>
    rw [wfB.eq_def] at hwf
    split at hwf
    next rs1 rs2 imm =>
      obtain ⟨h1, h2, hev, hlo, hhi⟩ := hwf
      simp only [encode_instruction, encode_b_type, Except.ok.injEq] at henc
      subst henc
      refine ⟨_, rfl, ?_⟩
      rw [extract_bits (toU32 imm) 12 1 (toU32 imm / 4096 % 2) ⟨1, rfl⟩ (by omega)]
      rw [extract_bits (toU32 imm) 5 63 (toU32 imm / 32 % 64) ⟨6, rfl⟩ (by omega)]
      rw [extract_bits (toU32 imm) 1 15 (toU32 imm / 2 % 16) ⟨4, rfl⟩ (by omega)]
      rw [extract_bits (toU32 imm) 11 1 (toU32 imm / 2048 % 2) ⟨1, rfl⟩ (by omega)]
      rw [b_word_sum (toU32 imm / 4096 % 2) (toU32 imm / 32 % 64) rs2 rs1 1
        (toU32 imm / 2 % 16) (toU32 imm / 2048 % 2) 99 (by omega) (by omega) h2 h1
        (by norm_num) (by omega) (by omega) (by norm_num)]
      rw [decode_word_bne (toU32 imm / 4096 % 2) (toU32 imm / 32 % 64) rs2 rs1 (toU32 imm / 2 % 16)
        (toU32 imm / 2048 % 2) (by omega) (by omega) h2 h1 (by omega) (by omega)]
      rw [b_imm_recover imm hev hlo hhi]
    all_goals exact hwf.elim
  case _ =>
    rw [wfB.eq_def] at hwf
    split at hwf
    next rs1 rs2 imm =>
      obtain ⟨h1, h2, hev, hlo, hhi⟩ := hwf
      simp only [encode_instruction, encode_b_type, Except.ok.injEq] at henc
      subst henc
      refine ⟨_, rfl, ?_⟩
      rw [extract_bits (toU32 imm) 12 1 (toU32 imm / 4096 % 2) ⟨1, rfl⟩ (by omega)]
      rw [extract_bits (toU32 imm) 5 63 (toU32 imm / 32 % 64) ⟨6, rfl⟩ (by omega)]
      rw [extract_bits (toU32 imm) 1 15 (toU32 imm / 2 % 16) ⟨4, rfl⟩ (by omega)]
      rw [extract_bits (toU32 imm) 11 1 (toU32 imm / 2048 % 2) ⟨1, rfl⟩ (by omega)]
      rw [b_word_sum (toU32 imm / 4096 % 2) (toU32 imm / 32 % 64) rs2 rs1 4
        (toU32 imm / 2 % 16) (toU32 imm / 2048 % 2) 99 (by omega) (by omega) h2 h1
        (by norm_num) (by omega) (by omega) (by norm_num)]
      rw [decode_word_blt (toU32 imm / 4096 % 2) (toU32 imm / 32 % 64) rs2 rs1 (toU32 imm / 2 % 16)
        (toU32 imm / 2048 % 2) (by omega) (by omega) h2 h1 (by omega) (by omega)]
      rw [b_imm_recover imm hev hlo hhi]
    all_goals exact hwf.elim
  case _ =>
    rw [wfB.eq_def] at hwf
    split at hwf
    next rs1 rs2 imm =>
      obtain ⟨h1, h2, hev, hlo, hhi⟩ := hwf
      simp only [encode_instruction, encode_b_type, Except.ok.injEq] at henc
      subst henc
      refine ⟨_, rfl, ?_⟩
      rw [extract_bits (toU32 imm) 12 1 (toU32 imm / 4096 % 2) ⟨1, rfl⟩ (by omega)]
      rw [extract_bits (toU32 imm) 5 63 (toU32 imm / 32 % 64) ⟨6, rfl⟩ (by omega)]
      rw [extract_bits (toU32 imm) 1 15 (toU32 imm / 2 % 16) ⟨4, rfl⟩ (by omega)]
      rw [extract_bits (toU32 imm) 11 1 (toU32 imm / 2048 % 2) ⟨1, rfl⟩ (by omega)]
      rw [b_word_sum (toU32 imm / 4096 % 2) (toU32 imm / 32 % 64) rs2 rs1 5
        (toU32 imm / 2 % 16) (toU32 imm / 2048 % 2) 99 (by omega) (by omega) h2 h1
        (by norm_num) (by omega) (by omega) (by norm_num)]
      rw [decode_word_bge (toU32 imm / 4096 % 2) (toU32 imm / 32 % 64) rs2 rs1 (toU32 imm / 2 % 16)
        (toU32 imm / 2048 % 2) (by omega) (by omega) h2 h1 (by omega) (by omega)]
      rw [b_imm_recover imm hev hlo hhi]
    all_goals exact hwf.elim
  case _ =>
    rw [wfB.eq_def] at hwf
    split at hwf
    next rs1 rs2 imm =>
      obtain ⟨h1, h2, hev, hlo, hhi⟩ := hwf
      simp only [encode_instruction, encode_b_type, Except.ok.injEq] at henc
      subst henc
      refine ⟨_, rfl, ?_⟩
      rw [extract_bits (toU32 imm) 12 1 (toU32 imm / 4096 % 2) ⟨1, rfl⟩ (by omega)]
      rw [extract_bits (toU32 imm) 5 63 (toU32 imm / 32 % 64) ⟨6, rfl⟩ (by omega)]
      rw [extract_bits (toU32 imm) 1 15 (toU32 imm / 2 % 16) ⟨4, rfl⟩ (by omega)]
      rw [extract_bits (toU32 imm) 11 1 (toU32 imm / 2048 % 2) ⟨1, rfl⟩ (by omega)]
      rw [b_word_sum (toU32 imm / 4096 % 2) (toU32 imm / 32 % 64) rs2 rs1 6
        (toU32 imm / 2 % 16) (toU32 imm / 2048 % 2) 99 (by omega) (by omega) h2 h1
        (by norm_num) (by omega) (by omega) (by norm_num)]
      rw [decode_word_bltu (toU32 imm / 4096 % 2) (toU32 imm / 32 % 64) rs2 rs1 (toU32 imm / 2 % 16)
        (toU32 imm / 2048 % 2) (by omega) (by omega) h2 h1 (by omega) (by omega)]
      rw [b_imm_recover imm hev hlo hhi]
    all_goals exact hwf.elim
  case _ =>
    rw [wfB.eq_def] at hwf
    split at hwf
    next rs1 rs2 imm =>
      obtain ⟨h1, h2, hev, hlo, hhi⟩ := hwf
      simp only [encode_instruction, encode_b_type, Except.ok.injEq] at henc
      subst henc
      refine ⟨_, rfl, ?_⟩
      rw [extract_bits (toU32 imm) 12 1 (toU32 imm / 4096 % 2) ⟨1, rfl⟩ (by omega)]
      rw [extract_bits (toU32 imm) 5 63 (toU32 imm / 32 % 64) ⟨6, rfl⟩ (by omega)]
      rw [extract_bits (toU32 imm) 1 15 (toU32 imm / 2 % 16) ⟨4, rfl⟩ (by omega)]
      rw [extract_bits (toU32 imm) 11 1 (toU32 imm / 2048 % 2) ⟨1, rfl⟩ (by omega)]
      rw [b_word_sum (toU32 imm / 4096 % 2) (toU32 imm / 32 % 64) rs2 rs1 7
        (toU32 imm / 2 % 16) (toU32 imm / 2048 % 2) 99 (by omega) (by omega) h2 h1
        (by norm_num) (by omega) (by omega) (by norm_num)]
      rw [decode_word_bgeu (toU32 imm / 4096 % 2) (toU32 imm / 32 % 64) rs2 rs1 (toU32 imm / 2 % 16)
        (toU32 imm / 2048 % 2) (by omega) (by omega) h2 h1 (by omega) (by omega)]
      rw [b_imm_recover imm hev hlo hhi]
    all_goals exact hwf.elim
  case _ =>
    rw [wfJ.eq_def] at hwf
    split at hwf
    next rd imm =>
      obtain ⟨hrd, hev, hlo, hhi⟩ := hwf
      simp only [encode_instruction, encode_j_type, Except.ok.injEq] at henc
      subst henc
      refine ⟨_, rfl, ?_⟩
      rw [extract_bits (toU32 imm) 20 1 (toU32 imm / 1048576 % 2) ⟨1, rfl⟩ (by omega)]
      rw [extract_bits (toU32 imm) 1 1023 (toU32 imm / 2 % 1024) ⟨10, rfl⟩ (by omega)]
      rw [extract_bits (toU32 imm) 11 1 (toU32 imm / 2048 % 2) ⟨1, rfl⟩ (by omega)]
      rw [extract_bits (toU32 imm) 12 255 (toU32 imm / 4096 % 256) ⟨8, rfl⟩ (by omega)]
      rw [j_word_sum (toU32 imm / 1048576 % 2) (toU32 imm / 4096 % 256) (toU32 imm / 2048 % 2)
        (toU32 imm / 2 % 1024) rd 111 (by omega) (by omega) (by omega) (by omega) hrd
        (by norm_num)]
      rw [decode_word_jal (toU32 imm / 1048576 % 2) (toU32 imm / 2 % 1024)
        (toU32 imm / 2048 % 2) (toU32 imm / 4096 % 256) rd (by omega) (by omega) (by omega)
        (by omega) hrd]
      rw [j_imm_recover imm hev hlo hhi]
    all_goals exact hwf.elim
  case _ =>
    subst hwf
    simp only [encode_instruction, Except.ok.injEq] at henc
    subst henc
    exact ⟨.Ecall, rfl, rfl⟩
  case _ =>
    subst hwf
    simp only [encode_instruction, Except.ok.injEq] at henc
    subst henc
    exact ⟨.Ebreak, rfl, rfl⟩

end Ruscv

namespace Ruscv

/-- Witness for C1: `add x1, x2, x3` encodes to 0x003100B3 and decodes back
to Add with the same fields. -/
theorem encode_decode_round_trip_witness :
    ∃ inst, expectedInstruction "add"
        [Operand.Register 1, Operand.Register 2, Operand.Register 3] [] = some inst ∧
      decode 3211443 = .ok inst :=
  encode_decode_round_trip "add" [Operand.Register 1, Operand.Register 2, Operand.Register 3]
    [] 4194304 3211443 rfl ⟨by norm_num, by norm_num, by norm_num⟩

/-- Counterexample to C1 as stated: the encoder accepts `addi x1, x0, 2048`
(outside the 12-bit signed range), but the emitted word decodes with
immediate -2048, not 2048, so the decoded fields differ from the consumed
fields. -/
theorem addi_out_of_range_immediate_mismatch :
    encode_instruction "addi" [Operand.Register 1, Operand.Register 0, Operand.Immediate 2048]
        [] 4194304 = .ok 2147483795 ∧
    decode 2147483795 = .ok (.Addi 1 0 (-2048)) ∧
    (-2048 : Int) ≠ 2048 :=
  ⟨rfl, rfl, by norm_num⟩

/-- C2: a branch or jal whose target operand is a label defined in the symbol
table is rejected by the encoder with an invalid-operand error; the label is
never resolved (the resolve call is commented out in the source). -/
theorem branch_jal_label_operand_rejected :
    SymbolTable.get_address [("loop", 4194320)] "loop" = some 4194320 ∧
    encode_instruction "beq" [Operand.Register 1, Operand.Register 2, Operand.Label "loop"]
        [("loop", 4194320)] 4194304
      = .error "Invalid operands for B-type instruction: expected register, register, immediate" ∧
    encode_instruction "jal" [Operand.Register 1, Operand.Label "loop"]
        [("loop", 4194320)] 4194304
      = .error "Invalid operands for J-type instruction: expected register, immediate" :=
  ⟨rfl, rfl, rfl⟩

/-- C3: `lui` and `auipc` statements are rejected as unsupported instructions;
their encoder cases are commented out in the source. -/
theorem lui_auipc_unsupported :
    encode_instruction "lui" [Operand.Register 5, Operand.Immediate 305418240] [] 4194304
      = .error "Unsupported instruction" ∧
    encode_instruction "auipc" [Operand.Register 5, Operand.Immediate 305418240] [] 4194304
      = .error "Unsupported instruction" :=
  ⟨rfl, rfl⟩

/-- C4: thirteen RV32I mnemonics are missing from the lexer's mnemonic list
and are classified as label identifiers, while recognized ones such as `lw`
become instruction tokens. -/
theorem missing_mnemonics_classified_as_labels :
    classify_identifier "lb" = .Label "lb" ∧
    classify_identifier "lh" = .Label "lh" ∧
    classify_identifier "lbu" = .Label "lbu" ∧
    classify_identifier "lhu" = .Label "lhu" ∧
    classify_identifier "sb" = .Label "sb" ∧
    classify_identifier "sh" = .Label "sh" ∧
    classify_identifier "bltu" = .Label "bltu" ∧
    classify_identifier "bgeu" = .Label "bgeu" ∧
    classify_identifier "lui" = .Label "lui" ∧
    classify_identifier "auipc" = .Label "auipc" ∧
    classify_identifier "ecall" = .Label "ecall" ∧
    classify_identifier "ebreak" = .Label "ebreak" ∧
    classify_identifier "fence" = .Label "fence" ∧
    classify_identifier "lw" = .Instruction "lw" :=
  ⟨rfl, rfl, rfl, rfl, rfl, rfl, rfl, rfl, rfl, rfl, rfl, rfl, rfl, rfl⟩

/-- C5: the words 0x00000073 and 0x00100073 decode to Ecall and Ebreak, but
executing either returns IllegalInstruction: both fall into the catch-all arm
of the source match (`TODO pending instructions: ecall, ebreak`), and the
StepError enum has no Ecall variant at all. -/
theorem ecall_ebreak_execute_as_illegal (p : Processor) :
    decode 0x00000073 = .ok .Ecall ∧
    decode 0x00100073 = .ok .Ebreak ∧
    p.execute .Ecall = (p, some .IllegalInstruction) ∧
    p.execute .Ebreak = (p, some .IllegalInstruction) :=
  ⟨rfl, rfl, rfl, rfl⟩

/-- C6: whenever the four bytes at offset `PC - TEXT_BASE` cannot be read from
the text segment - in particular when PC is below TEXT_BASE (the wrapping
subtraction produces a huge offset) or at or past the end of text - fetch
returns `MemoryFault (OutOfBounds pc)`.  The embedding is total, so no panic
or divergence is possible on this path. -/
theorem fetch_out_of_bounds (p : Processor)
    (hbase : p.memory.text_base = TEXT_BASE)
    (hpc : p.pc < 4294967296)
    (hlen : p.memory.text.length ≤ 4294967296 - TEXT_BASE)
    (hmiss : p.pc < TEXT_BASE ∨ TEXT_BASE + p.memory.text.length < p.pc + 4) :
    p.fetch = .error (.MemoryFault (.OutOfBounds p.pc)) := by
  have hne : ¬ (wsub p.pc p.memory.text_base + 4 ≤ p.memory.text.length) := by
    unfold wsub
    rw [hbase]
    unfold TEXT_BASE at hlen hmiss ⊢
    omega
  simp only [Processor.fetch]
  rw [if_neg hne]

/-- Witness for C6: a freshly constructed processor with empty text and
PC = 0 (below TEXT_BASE) faults on fetch. -/
theorem fetch_out_of_bounds_witness :
    (Processor.mk 0 (fun _ => 0) (Memory.mk [] [] [] TEXT_BASE DATA_BASE STACK_BASE)).fetch
      = .error (.MemoryFault (.OutOfBounds 0)) :=
  fetch_out_of_bounds (Processor.mk 0 (fun _ => 0)
      (Memory.mk [] [] [] TEXT_BASE DATA_BASE STACK_BASE))
    rfl (by norm_num) (by simp) (Or.inl (by norm_num [TEXT_BASE]))

/-- The destination register of a decoded instruction, when it has one. -/
def destination : Instruction → Option Nat
  | .Add rd _ _ => some rd
  | .Sub rd _ _ => some rd
  | .And rd _ _ => some rd
  | .Or rd _ _ => some rd
  | .Xor rd _ _ => some rd
  | .Sll rd _ _ => some rd
  | .Srl rd _ _ => some rd
  | .Sra rd _ _ => some rd
  | .Slt rd _ _ => some rd
  | .Sltu rd _ _ => some rd
  | .Addi rd _ _ => some rd
  | .Andi rd _ _ => some rd
  | .Ori rd _ _ => some rd
  | .Xori rd _ _ => some rd
  | .Slli rd _ _ => some rd
  | .Srli rd _ _ => some rd
  | .Srai rd _ _ => some rd
  | .Slti rd _ _ => some rd
  | .Sltiu rd _ _ => some rd
  | .Lb rd _ _ => some rd
  | .Lh rd _ _ => some rd
  | .Lw rd _ _ => some rd
  | .Lbu rd _ _ => some rd
  | .Lhu rd _ _ => some rd
  | .Lui rd _ => some rd
  | .Auipc rd _ => some rd
  | .Jal rd _ => some rd
  | .Jalr rd _ _ => some rd
  | _ => none

/-- Writes to register 0 are discarded. -/
theorem write_register_zero (p : Processor) (v : Nat) : p.write_register 0 v = p := rfl

end Ruscv

namespace Ruscv

/-- C7: register x0 reads as 0 in every state (hence before and after any
step), and executing any instruction whose destination register is x0 leaves
the whole register file unchanged: every register write is funnelled through
write_register, which discards writes to index 0. -/
theorem x0_reads_zero_and_rd0_preserves_registers (p : Processor) (inst : Instruction)
    (h : destination inst = some 0) :
    p.read_register 0 = 0 ∧
    ((p.execute inst).1).registers = p.registers ∧
    ((p.execute inst).1).read_register 0 = 0 := by
  refine ⟨rfl, ?_, rfl⟩
  cases inst with
  | Add rd a b =>
    obtain rfl : rd = 0 := by simpa [destination] using h
    simp only [Processor.execute, write_register_zero]
  | Sub rd a b =>
    obtain rfl : rd = 0 := by simpa [destination] using h
    simp only [Processor.execute, write_register_zero]
  | And rd a b =>
    obtain rfl : rd = 0 := by simpa [destination] using h
    simp only [Processor.execute, write_register_zero]
  | Or rd a b =>
    obtain rfl : rd = 0 := by simpa [destination] using h
    simp only [Processor.execute, write_register_zero]
  | Xor rd a b =>
    obtain rfl : rd = 0 := by simpa [destination] using h
    simp only [Processor.execute, write_register_zero]
  | Sll rd a b =>
    obtain rfl : rd = 0 := by simpa [destination] using h
    simp only [Processor.execute, write_register_zero]
  | Srl rd a b =>
    obtain rfl : rd = 0 := by simpa [destination] using h
    simp only [Processor.execute, write_register_zero]
  | Sra rd a b =>
    obtain rfl : rd = 0 := by simpa [destination] using h
    simp only [Processor.execute, write_register_zero]
  | Slt rd a b =>
    obtain rfl : rd = 0 := by simpa [destination] using h
    simp only [Processor.execute, write_register_zero]
  | Sltu rd a b =>
    obtain rfl : rd = 0 := by simpa [destination] using h
    simp only [Processor.execute, write_register_zero]
  | Addi rd a b =>
    obtain rfl : rd = 0 := by simpa [destination] using h
    simp only [Processor.execute, write_register_zero]
  | Andi rd a b =>
    obtain rfl : rd = 0 := by simpa [destination] using h
    simp only [Processor.execute, write_register_zero]
  | Ori rd a b =>
    obtain rfl : rd = 0 := by simpa [destination] using h
    simp only [Processor.execute, write_register_zero]
  | Xori rd a b =>
    obtain rfl : rd = 0 := by simpa [destination] using h
    simp only [Processor.execute, write_register_zero]
  | Slli rd a b =>
    obtain rfl : rd = 0 := by simpa [destination] using h
    simp only [Processor.execute, write_register_zero]
  | Srli rd a b =>
    obtain rfl : rd = 0 := by simpa [destination] using h
    simp only [Processor.execute, write_register_zero]
  | Srai rd a b =>
    obtain rfl : rd = 0 := by simpa [destination] using h
    simp only [Processor.execute, write_register_zero]
  | Slti rd a b =>
    obtain rfl : rd = 0 := by simpa [destination] using h
    simp only [Processor.execute, write_register_zero]
  | Sltiu rd a b =>
    obtain rfl : rd = 0 := by simpa [destination] using h
    simp only [Processor.execute, write_register_zero]
  | Lui rd a =>
    obtain rfl : rd = 0 := by simpa [destination] using h
    simp only [Processor.execute, write_register_zero]
  | Auipc rd a =>
    obtain rfl : rd = 0 := by simpa [destination] using h
    simp only [Processor.execute, write_register_zero]
  | Jal rd a =>
    obtain rfl : rd = 0 := by simpa [destination] using h
    simp only [Processor.execute, write_register_zero]
  | Jalr rd a b =>
    obtain rfl : rd = 0 := by simpa [destination] using h
    simp only [Processor.execute, write_register_zero]
  | Lb rd a b =>
    obtain rfl : rd = 0 := by simpa [destination] using h
    simp only [Processor.execute]
    split
    · rfl
    · simp only [write_register_zero]
  | Lh rd a b =>
    obtain rfl : rd = 0 := by simpa [destination] using h
    simp only [Processor.execute]
    split
    · rfl
    · simp only [write_register_zero]
  | Lw rd a b =>
    obtain rfl : rd = 0 := by simpa [destination] using h
    simp only [Processor.execute]
    split
    · rfl
    · simp only [write_register_zero]
  | Lbu rd a b =>
    obtain rfl : rd = 0 := by simpa [destination] using h
    simp only [Processor.execute]
    split
    · rfl
    · simp only [write_register_zero]
  | Lhu rd a b =>
    obtain rfl : rd = 0 := by simpa [destination] using h
    simp only [Processor.execute]
    split
    · rfl
    · simp only [write_register_zero]
  | Sb a b c => simp [destination] at h
  | Sh a b c => simp [destination] at h
  | Sw a b c => simp [destination] at h
  | Beq a b c => simp [destination] at h
  | Bne a b c => simp [destination] at h
  | Blt a b c => simp [destination] at h
  | Bge a b c => simp [destination] at h
  | Bltu a b c => simp [destination] at h
  | Bgeu a b c => simp [destination] at h
  | Ecall => simp [destination] at h
  | Ebreak => simp [destination] at h

/-- Witness for C7: `addi x0, x1, 5` leaves the register file unchanged. -/
theorem x0_reads_zero_witness :
    (Processor.mk 7 (fun _ => 9) (Memory.mk [] [] [] TEXT_BASE DATA_BASE STACK_BASE)).read_register
        0 = 0 ∧
    (((Processor.mk 7 (fun _ => 9)
          (Memory.mk [] [] [] TEXT_BASE DATA_BASE STACK_BASE)).execute
        (.Addi 0 1 5)).1).registers = (fun _ => 9) ∧
    (((Processor.mk 7 (fun _ => 9)
          (Memory.mk [] [] [] TEXT_BASE DATA_BASE STACK_BASE)).execute
        (.Addi 0 1 5)).1).read_register 0 = 0 :=
  x0_reads_zero_and_rd0_preserves_registers
    (Processor.mk 7 (fun _ => 9) (Memory.mk [] [] [] TEXT_BASE DATA_BASE STACK_BASE))
    (.Addi 0 1 5) rfl

end Ruscv

namespace Ruscv

/-- Concrete processor state for the jalr aliasing scenario: PC = 0x100 and
x1 = 0x200. -/
def jalrAliasState : Processor :=
  Processor.mk 0x100 (fun i => if i = 1 then 0x200 else 0)
    (Memory.mk [] [] [] TEXT_BASE DATA_BASE STACK_BASE)

/-- C8 failing input: executing `jalr x1, 0(x1)` (rd = rs1 = x1) from
PC = 0x100 with x1 = 0x200.  The claim requires the next PC to be computed
from the value x1 held at the start of the step, `(0x200 + 0) & ~1 = 0x200`,
but the code writes rd first and then reads rs1, so the PC becomes 0x104. -/
theorem jalr_same_register_uses_overwritten_base :
    jalrAliasState.read_register 1 = 0x200 ∧
    wrap32 (jalrAliasState.read_register 1 + toU32 0) &&& 0xFFFFFFFE = 0x200 ∧
    (jalrAliasState.execute (.Jalr 1 1 0)).1.read_register 1 = 0x104 ∧
    (jalrAliasState.execute (.Jalr 1 1 0)).1.pc = 0x104 ∧
    (0x104 : Nat) ≠ 0x200 :=
  ⟨rfl, by decide, rfl, by decide, by decide⟩

/-- C9 failing input: the decimal literal 2147483648 does not fit in a signed
32-bit integer, yet the lexer does not fail: `unwrap_or(0)` silently turns
the overflow into the immediate token 0.  The in-range literal 2147483647
lexes to its value. -/
theorem numeric_overflow_lexes_to_zero :
    read_number '2' "147483648".data = (Token.Immediate 0, []) ∧
    read_number '2' "147483647".data = (Token.Immediate 2147483647, []) := by
  constructor <;> rfl

/-- Execute preserves the PC and the register file whenever it returns an
error: every error path returns before registers are written (loads) or
mutates only memory (stores), and the PC commit happens only on success. -/
theorem execute_error_preserves (p : Processor) (inst : Instruction) (p' : Processor)
    (e : StepError) (h : p.execute inst = (p', some e)) :
    p'.pc = p.pc ∧ p'.registers = p.registers := by
  cases inst
  all_goals simp only [Processor.execute] at h
  all_goals try split at h
  all_goals
    first
      | (injection h with h1 h2; exact Option.noConfusion h2)
      | (injection h with h1 h2; subst h1; exact ⟨rfl, rfl⟩)

/-- C10: whenever step() returns an error - fetch fault, decode failure, or
any execute error - the PC and all registers hold exactly the values they
held before the call; only memory may have been partially modified. -/
theorem step_error_preserves_state (p p' : Processor) (e : StepError)
    (h : p.step = (p', some e)) :
    p'.pc = p.pc ∧ p'.registers = p.registers := by
  unfold Processor.step at h
  rcases hf : p.fetch with e1 | mi
  · rw [hf] at h
    injection h with h1 h2
    subst h1
    exact ⟨rfl, rfl⟩
  rw [hf] at h
  dsimp only at h
  rcases hd : decode mi with e2 | inst
  · rw [hd] at h
    injection h with h1 h2
    subst h1
    exact ⟨rfl, rfl⟩
  rw [hd] at h
  exact execute_error_preserves p inst p' e h

/-- Witness for C10: a processor with empty text faults on fetch and keeps
its state. -/
theorem step_error_preserves_state_witness :
    (Processor.mk 0 (fun _ => 0) (Memory.mk [] [] [] TEXT_BASE DATA_BASE STACK_BASE)).pc
        = (Processor.mk 0 (fun _ => 0) (Memory.mk [] [] [] TEXT_BASE DATA_BASE STACK_BASE)).pc ∧
    (Processor.mk 0 (fun _ => 0) (Memory.mk [] [] [] TEXT_BASE DATA_BASE STACK_BASE)).registers
        = (Processor.mk 0 (fun _ => 0)
            (Memory.mk [] [] [] TEXT_BASE DATA_BASE STACK_BASE)).registers :=
  step_error_preserves_state
    (Processor.mk 0 (fun _ => 0) (Memory.mk [] [] [] TEXT_BASE DATA_BASE STACK_BASE))
    (Processor.mk 0 (fun _ => 0) (Memory.mk [] [] [] TEXT_BASE DATA_BASE STACK_BASE))
    (.MemoryFault (.OutOfBounds 0)) rfl

end Ruscv
